import Mathlib

/-!
Verification of the dbus-deviation core: the D-Bus type-signature parser
(`dbusapi/typeparser.py`, `dbusapi/types.py`), the interface AST
construction rules (`dbusapi/ast.py`, `dbusapi/log.py`,
`dbusapi/interfaceparser.py`) and the interface comparator
(`dbusdeviation/interfacecomparator.py`), shallowly embedded in Lean.

Every definition is a direct translation of the corresponding Python
function; comments name the source location.
-/

namespace DBusDeviation

/-! ## Log entries (log.py)

`Log._create_entry` produces the tuple `(None, domain, code, message)`;
the comparator produces `(new_filename, level, code, message)`.  Both are
represented by `LogEntry` (first component `Option String`). -/

structure LogEntry where
  filename : Option String
  domain : String
  code : String
  message : String
  deriving Repr, DecidableEq

/-- Brace characters, used by the type-signature grammar
(written via code points to keep them out of string/char literals). -/
def lbrace : Char := Char.ofNat 123

def rbrace : Char := Char.ofNat 125

/-! ## The type model (types.py)

One tagged union mirroring the `Type` class hierarchy: 14 scalar leaf
classes and the three `Container` subclasses, whose `members` field is a
plain Python list (arities are enforced by the parser, and by asserts in
`__str__`, not by the data type). -/

inductive DType where
  | byte | boolean | int16 | uint16 | int32 | uint32
  | int64 | uint64 | double | string | objectPath | signature
  | variant | unixFD
  | array (members : List DType)
  | struct (members : List DType)
  | dictEntry (members : List DType)

mutual
/-- `Type.__eq__` / `Container` equality (types.py lines 53-55): same
class and equal `__dict__`, i.e. structural equality. -/
def beqType : DType → DType → Bool
  | .byte, .byte => true
  | .boolean, .boolean => true
  | .int16, .int16 => true
  | .uint16, .uint16 => true
  | .int32, .int32 => true
  | .uint32, .uint32 => true
  | .int64, .int64 => true
  | .uint64, .uint64 => true
  | .double, .double => true
  | .string, .string => true
  | .objectPath, .objectPath => true
  | .signature, .signature => true
  | .variant, .variant => true
  | .unixFD, .unixFD => true
  | .array a, .array b => beqTypeList a b
  | .struct a, .struct b => beqTypeList a b
  | .dictEntry a, .dictEntry b => beqTypeList a b
  | _, _ => false

def beqTypeList : List DType → List DType → Bool
  | [], [] => true
  | a :: as, b :: bs => beqType a b && beqTypeList as bs
  | _, _ => false
end

/-- `TypeSignature.members` (types.py line 370): an ordered list of types. -/
abbrev TypeSignature := List DType

/-- The one-character wire code of each scalar type (`self.type` in the
scalar constructors of types.py); containers handled in `renderType`. -/
def DType.code : DType → Char
  | .byte => 'y'
  | .boolean => 'b'
  | .int16 => 'n'
  | .uint16 => 'q'
  | .int32 => 'i'
  | .uint32 => 'u'
  | .int64 => 'x'
  | .uint64 => 't'
  | .double => 'd'
  | .string => 's'
  | .objectPath => 'o'
  | .signature => 'g'
  | .variant => 'v'
  | .unixFD => 'h'
  | .array _ => 'a'
  | .struct _ => 'r'
  | .dictEntry _ => 'e'

mutual
/-- `Type.__str__` / `Array.__str__` / `Struct.__str__` /
`DictEntry.__str__` (types.py), as a list of characters.  The Python
methods `assert` the container arities (`Array`: exactly one member,
`DictEntry`: exactly two); an assert failure is modelled by `none`. -/
def renderType : DType → Option (List Char)
  | .array ms =>
    match ms with
    | [m] => (renderType m).map (fun l => 'a' :: l)
    | _ => none
  | .struct ms => (renderMembers ms).map (fun l => '(' :: (l ++ [')']))
  | .dictEntry ms =>
    match ms with
    | [k, v] =>
      match renderType k, renderType v with
      | some lk, some lv => some (lbrace :: (lk ++ lv ++ [rbrace]))
      | _, _ => none
    | _ => none
  | t => some [t.code]

/-- Concatenated rendering of a member list (`"".join(map(str, ...))`). -/
def renderMembers : List DType → Option (List Char)
  | [] => some []
  | t :: ts =>
    match renderType t, renderMembers ts with
    | some l, some ls => some (l ++ ls)
    | _, _ => none
end

/-- `TypeSignature.__str__` (types.py line 372): concatenation of the
members' renderings, `none` if any member's `__str__` would fail its
arity assert. -/
def renderSignature (ts : TypeSignature) : Option String :=
  (renderMembers ts).map (fun l => String.mk l)

/-! ## The type parser (typeparser.py)

`TypeParser` walks the signature string left to right
(`_get_next_character`), building one `Type` per call of
`_parse_one_type`.  The walk is embedded over `List Char` with the not yet
consumed suffix threaded through; the parser is fail-fast (every
`log_issue` is immediately followed by `return None`), so the log is
modelled by `Except LogEntry`.  Recursion is by fuel; `fuelExhausted` is
never reached when the fuel exceeds twice the remaining input length
(proved in `parse_no_fuel_error` below). -/

/-- A `TypeParsingLog` entry: `_create_entry` with domain `types`. -/
def typeIssue (code message : String) : LogEntry :=
  { filename := none, domain := "types", code := code, message := message }

/-- Sentinel for running out of fuel; unreachable from `parseSignature`. -/
def fuelExhausted : LogEntry := typeIssue "fuel" "Fuel exhausted."

/-- The `basic_types` dictionary in `_parse_one_type`. -/
def basicType : Char → Option DType
  | 'y' => some .byte
  | 'b' => some .boolean
  | 'n' => some .int16
  | 'q' => some .uint16
  | 'i' => some .int32
  | 'u' => some .uint32
  | 'x' => some .int64
  | 't' => some .uint64
  | 'd' => some .double
  | 's' => some .string
  | 'o' => some .objectPath
  | 'g' => some .signature
  | 'v' => some .variant
  | 'h' => some .unixFD
  | _ => none

/-- The reserved type codes list in `_parse_one_type` (line 158). -/
def reservedCodes : List Char := ['r', 'e', 'm', '*', '?', '@', '&', '^']

/-- One parse result: a type and the unconsumed suffix, or the single
logged issue. -/
abbrev ParseRes := Except LogEntry (DType × List Char)

/-- The body of `TypeParser._parse_one_type`: parse one complete type
whose first character `c` has been consumed; `rest` is the remaining
input.  `rec1`, `recS` and `recD` are the recursive entry points (the
lower-fuel parser functions below). -/
def parseOneTypeF (rec1 : Char → List Char → ParseRes)
    (recS recD : List Char → List DType → ParseRes)
    (c : Char) (rest : List Char) : ParseRes :=
  match basicType c with
  | some t => .ok (t, rest)
  | none =>
    if c = 'a' then
      match rest with
      | [] => .error (typeIssue "invalid-type" "Incomplete array declaration.")
      | c2 :: rest2 =>
        match rec1 c2 rest2 with
        | .error e => .error e
        | .ok (t, r) => .ok (.array [t], r)
    else if c = '(' then
      recS rest []
    else if c = lbrace then
      recD rest []
    else if c ∈ reservedCodes then
      .error (typeIssue "reserved-type"
        ("Reserved type ‘" ++ String.singleton c ++
         "’ must not be used in signatures on D-Bus."))
    else
      .error (typeIssue "unknown-type"
        ("Unknown type ‘" ++ String.singleton c ++ "’."))

/-- The `while True` loop of the `(` branch of `_parse_one_type`:
`acc` is `out_struct.members` so far. -/
def parseStructMembersF (rec1 : Char → List Char → ParseRes)
    (recS : List Char → List DType → ParseRes)
    (rest : List Char) (acc : List DType) : ParseRes :=
  match rest with
  | [] => .error (typeIssue "invalid-type" "Incomplete structure declaration.")
  | c :: rest2 =>
    if c = ')' then
      if acc.isEmpty then
        .error (typeIssue "invalid-type" "Incomplete structure declaration.")
      else
        .ok (.struct acc, rest2)
    else
      match rec1 c rest2 with
      | .error e => .error e
      | .ok (t, r) => recS r (acc ++ [t])

/-- The `while True` loop of the `{` branch of `_parse_one_type`:
`acc` is `out_dict.members` so far.  A closing brace with member count ≠ 2
is an incomplete dictionary; a third member is an invalid dictionary. -/
def parseDictMembersF (rec1 : Char → List Char → ParseRes)
    (recD : List Char → List DType → ParseRes)
    (rest : List Char) (acc : List DType) : ParseRes :=
  match rest with
  | [] => .error (typeIssue "invalid-type" "Incomplete dictionary declaration.")
  | c :: rest2 =>
    if c = rbrace then
      if acc.length ≠ 2 then
        .error (typeIssue "invalid-type" "Incomplete dictionary declaration.")
      else
        .ok (.dictEntry acc, rest2)
    else
      match rec1 c rest2 with
      | .error e => .error e
      | .ok (t, r) =>
        if acc.length ≥ 2 then
          .error (typeIssue "invalid-type" "Invalid dictionary declaration.")
        else
          recD r (acc ++ [t])

/-- The `while True` loop of `TypeParser.parse`: consume one character at
a time until the input is exhausted, collecting top-level types. -/
def parseTopLevelF (rec1 : Char → List Char → ParseRes)
    (recT : List Char → List DType → Except LogEntry (List DType))
    (rest : List Char) (acc : List DType) : Except LogEntry (List DType) :=
  match rest with
  | [] => .ok acc
  | c :: rest2 =>
    match rec1 c rest2 with
    | .error e => .error e
    | .ok (t, r) => recT r (acc ++ [t])

mutual
/-- `TypeParser._parse_one_type`, by fuel. -/
def parseOneType : Nat → Char → List Char → ParseRes
  | 0, _, _ => .error fuelExhausted
  | fuel + 1, c, rest =>
    parseOneTypeF (parseOneType fuel) (parseStructMembers fuel)
      (parseDictMembers fuel) c rest

/-- The struct-member loop of `_parse_one_type`, by fuel. -/
def parseStructMembers : Nat → List Char → List DType → ParseRes
  | 0, _, _ => .error fuelExhausted
  | fuel + 1, rest, acc =>
    parseStructMembersF (parseOneType fuel) (parseStructMembers fuel) rest acc

/-- The dict-member loop of `_parse_one_type`, by fuel. -/
def parseDictMembers : Nat → List Char → List DType → ParseRes
  | 0, _, _ => .error fuelExhausted
  | fuel + 1, rest, acc =>
    parseDictMembersF (parseOneType fuel) (parseDictMembers fuel) rest acc

/-- The top-level loop of `TypeParser.parse`, by fuel. -/
def parseTopLevel : Nat → List Char → List DType → Except LogEntry (List DType)
  | 0, _, _ => .error fuelExhausted
  | fuel + 1, rest, acc =>
    parseTopLevelF (parseOneType fuel) (parseTopLevel fuel) rest acc
end

/-- Fuel budget for a signature string: each nested parser call consumes
at least one input character or closes over one already consumed, so
twice the length plus two always suffices. -/
def parseFuel (s : String) : Nat := 2 * s.length + 2

/-- `TypeParser.parse` together with `TypeParser.get_output`: the
resulting signature (or `none`) and the list of logged issues. -/
def parseSignatureWithLog (s : String) : Option TypeSignature × List LogEntry :=
  if s.length = 0 then
    (none, [typeIssue "invalid-type" "Empty type string."])
  else
    match parseTopLevel (parseFuel s) s.toList [] with
    | .ok ts => (some ts, [])
    | .error e => (none, [e])

/-- `TypeParser.parse` alone. -/
def parseSignature (s : String) : Option TypeSignature :=
  (parseSignatureWithLog s).1

/-! ## Structural invariants of parsed signatures -/

mutual
/-- The container arity invariants of the D-Bus type system (spec §3):
an Array has exactly one member, a Struct at least one, a DictEntry
exactly two, recursively. -/
def arityOk : DType → Bool
  | .array ms => (ms.length == 1) && arityOkList ms
  | .struct ms => (1 ≤ ms.length) && arityOkList ms
  | .dictEntry ms => (ms.length == 2) && arityOkList ms
  | _ => true

def arityOkList : List DType → Bool
  | [] => true
  | t :: ts => arityOk t && arityOkList ts
end

mutual
/-- Spec-side predicate for the placement invariant claimed in the spec:
a DictEntry node occurs only as the sole child of an Array. -/
def dictPlaced : DType → Bool
  | .array [.dictEntry ds] => dictPlacedList ds
  | .array ms => dictPlacedList ms
  | .struct ms => dictPlacedList ms
  | .dictEntry _ => false
  | _ => true

def dictPlacedList : List DType → Bool
  | [] => true
  | t :: ts => dictPlaced t && dictPlacedList ts
end

/-! ## Parser lemmas -/

theorem renderType_ne_nil (t : DType) (l : List Char)
    (h : renderType t = some l) : l ≠ [] := by
  cases t with
  | array ms =>
    match ms with
    | [] => simp [renderType] at h
    | [m] =>
      simp only [renderType, Option.map_eq_some'] at h
      obtain ⟨l0, _, rfl⟩ := h
      simp
    | _ :: _ :: _ => simp [renderType] at h
  | struct ms =>
    simp only [renderType, Option.map_eq_some'] at h
    obtain ⟨l0, _, rfl⟩ := h
    simp
  | dictEntry ms =>
    match ms with
    | [] => simp [renderType] at h
    | [_] => simp [renderType] at h
    | [k, v] =>
      rw [renderType] at h
      cases hk : renderType k with
      | none => rw [hk] at h; simp at h
      | some lk =>
        cases hv : renderType v with
        | none => rw [hk, hv] at h; simp at h
        | some lv => rw [hk, hv] at h; simp at h; simp [h.symm]
    | _ :: _ :: _ :: _ => simp [renderType] at h
  | byte => simp [renderType] at h; simp [h.symm]
  | boolean => simp [renderType] at h; simp [h.symm]
  | int16 => simp [renderType] at h; simp [h.symm]
  | uint16 => simp [renderType] at h; simp [h.symm]
  | int32 => simp [renderType] at h; simp [h.symm]
  | uint32 => simp [renderType] at h; simp [h.symm]
  | int64 => simp [renderType] at h; simp [h.symm]
  | uint64 => simp [renderType] at h; simp [h.symm]
  | double => simp [renderType] at h; simp [h.symm]
  | string => simp [renderType] at h; simp [h.symm]
  | objectPath => simp [renderType] at h; simp [h.symm]
  | signature => simp [renderType] at h; simp [h.symm]
  | variant => simp [renderType] at h; simp [h.symm]
  | unixFD => simp [renderType] at h; simp [h.symm]

theorem basicType_render (c : Char) (t : DType) (h : basicType c = some t) :
    renderType t = some [c] := by
  unfold basicType at h
  split at h <;> simp_all <;> simp [h.symm, renderType, DType.code]

/-- Every successful `_parse_one_type` renders back to exactly the
characters it consumed (and analogously for the loop helpers). -/
theorem parse_render_aux : ∀ fuel : Nat,
    (∀ c rest t r, parseOneType fuel c rest = .ok (t, r) →
      ∃ l, renderType t = some l ∧ c :: rest = l ++ r) ∧
    (∀ rest acc t r, parseStructMembers fuel rest acc = .ok (t, r) →
      ∃ ms l, t = .struct (acc ++ ms) ∧ renderMembers ms = some l ∧
        rest = l ++ ')' :: r) ∧
    (∀ rest acc t r, parseDictMembers fuel rest acc = .ok (t, r) →
      ∃ ms l, t = .dictEntry (acc ++ ms) ∧ (acc ++ ms).length = 2 ∧
        renderMembers ms = some l ∧ rest = l ++ rbrace :: r) ∧
    (∀ rest acc ts, parseTopLevel fuel rest acc = .ok ts →
      ∃ ms l, ts = acc ++ ms ∧ renderMembers ms = some l ∧ rest = l) := by
  intro fuel
  induction fuel with
  | zero =>
    refine ⟨?_, ?_, ?_, ?_⟩
    · intro a b c d h
      simp [parseOneType] at h
    · intro a b c d h
      simp [parseStructMembers] at h
    · intro a b c d h
      simp [parseDictMembers] at h
    · intro a b c h
      simp [parseTopLevel] at h
  | succ n ih =>
    obtain ⟨ih1, ih2, ih3, ih4⟩ := ih
    refine ⟨?_, ?_, ?_, ?_⟩
    · -- parseOneType
      intro c rest t r h
      rw [parseOneType] at h
      unfold parseOneTypeF at h
      split at h
      · -- basic type
        rename_i t0 hb
        simp at h
        obtain ⟨rfl, rfl⟩ := h
        exact ⟨[c], basicType_render c t0 hb, rfl⟩
      · rename_i hb
        split at h
        · -- array branch, c = 'a'
          rename_i hc
          split at h
          · simp at h
          · rename_i c2 rest2
            split at h
            · simp at h
            · rename_i t0 r0 hp
              simp at h
              obtain ⟨rfl, rfl⟩ := h
              obtain ⟨l0, hl0, hcons⟩ := ih1 c2 rest2 t0 r0 hp
              refine ⟨'a' :: l0, ?_, ?_⟩
              · simp [renderType, hl0]
              · simp [hc, hcons]
        · split at h
          · -- struct branch, c = '('
            rename_i hc
            obtain ⟨ms, l, rfl, hrm, hrest⟩ := ih2 rest [] t r h
            refine ⟨'(' :: (l ++ [')']), ?_, ?_⟩
            · simp [renderType, hrm]
            · simp [hc, hrest]
          · split at h
            · -- dict branch, c = lbrace
              rename_i hc
              obtain ⟨ms, l, rfl, hlen, hrm, hrest⟩ := ih3 rest [] t r h
              simp at hlen
              obtain ⟨k, v, rfl⟩ := List.length_eq_two.mp hlen
              rw [renderMembers] at hrm
              cases hk : renderType k with
              | none => rw [hk] at hrm; simp at hrm
              | some lk =>
                rw [hk, renderMembers] at hrm
                cases hv : renderType v with
                | none => rw [hv] at hrm; simp at hrm
                | some lv =>
                  rw [hv, renderMembers] at hrm
                  simp at hrm
                  refine ⟨lbrace :: (lk ++ lv ++ [rbrace]), ?_, ?_⟩
                  · simp [renderType, hk, hv]
                  · rw [hc, hrest, hrm.symm]
                    simp
            · split at h
              · simp at h
              · simp at h
    · -- parseStructMembers
      intro rest acc t r h
      rw [parseStructMembers] at h
      unfold parseStructMembersF at h
      split at h
      · simp at h
      · rename_i c rest2
        split at h
        · -- c = ')'
          rename_i hc
          split at h
          · simp at h
          · simp at h
            obtain ⟨rfl, rfl⟩ := h
            exact ⟨[], [], by simp, rfl, by simp [hc]⟩
        · -- member
          rename_i hc
          split at h
          · simp at h
          · rename_i t0 r0 hp
            obtain ⟨l0, hl0, hcons⟩ := ih1 c rest2 t0 r0 hp
            obtain ⟨ms2, l2, rfl, hrm, hrest⟩ := ih2 r0 (acc ++ [t0]) t r h
            refine ⟨t0 :: ms2, l0 ++ l2, ?_, ?_, ?_⟩
            · simp
            · rw [renderMembers, hl0, hrm]
            · rw [hcons, hrest]
              simp
    · -- parseDictMembers
      intro rest acc t r h
      rw [parseDictMembers] at h
      unfold parseDictMembersF at h
      split at h
      · simp at h
      · rename_i c rest2
        split at h
        · -- c = rbrace
          rename_i hc
          split at h
          · simp at h
          · rename_i hlen
            simp at h hlen
            obtain ⟨rfl, rfl⟩ := h
            exact ⟨[], [], by simp, by simp [hlen], rfl, by simp [hc]⟩
        · -- member
          rename_i hc
          split at h
          · simp at h
          · rename_i t0 r0 hp
            split at h
            · simp at h
            · obtain ⟨l0, hl0, hcons⟩ := ih1 c rest2 t0 r0 hp
              obtain ⟨ms2, l2, rfl, hlen, hrm, hrest⟩ :=
                ih3 r0 (acc ++ [t0]) t r h
              refine ⟨t0 :: ms2, l0 ++ l2, ?_, ?_, ?_, ?_⟩
              · simp
              · simpa using hlen
              · rw [renderMembers, hl0, hrm]
              · rw [hcons, hrest]
                simp
    · -- parseTopLevel
      intro rest acc ts h
      rw [parseTopLevel] at h
      unfold parseTopLevelF at h
      split at h
      · simp at h
        exact ⟨[], [], by simp [h.symm], rfl, rfl⟩
      · rename_i c rest2
        split at h
        · simp at h
        · rename_i t0 r0 hp
          obtain ⟨l0, hl0, hcons⟩ := ih1 c rest2 t0 r0 hp
          obtain ⟨ms2, l2, rfl, hrm, hrest⟩ := ih4 r0 (acc ++ [t0]) ts h
          refine ⟨t0 :: ms2, l0 ++ l2, ?_, ?_, ?_⟩
          · simp
          · rw [renderMembers, hl0, hrm]
          · rw [hcons, hrest]

theorem arityOkList_append (a b : List DType) :
    arityOkList (a ++ b) = (arityOkList a && arityOkList b) := by
  induction a with
  | nil => simp [arityOkList]
  | cons t ts ih => simp [arityOkList, ih, Bool.and_assoc]

theorem basicType_arity (c : Char) (t : DType) (h : basicType c = some t) :
    arityOk t = true := by
  unfold basicType at h
  split at h <;> simp_all <;> simp [h.symm, arityOk]

/-- Every type built by a successful `_parse_one_type` call satisfies the
container arity invariants. -/
theorem parse_arity_aux : ∀ fuel : Nat,
    (∀ c rest t r, parseOneType fuel c rest = .ok (t, r) →
      arityOk t = true) ∧
    (∀ rest acc t r, arityOkList acc = true →
      parseStructMembers fuel rest acc = .ok (t, r) → arityOk t = true) ∧
    (∀ rest acc t r, arityOkList acc = true →
      parseDictMembers fuel rest acc = .ok (t, r) → arityOk t = true) ∧
    (∀ rest acc ts, arityOkList acc = true →
      parseTopLevel fuel rest acc = .ok ts → arityOkList ts = true) := by
  intro fuel
  induction fuel with
  | zero =>
    refine ⟨?_, ?_, ?_, ?_⟩
    · intro a b c d h
      simp [parseOneType] at h
    · intro a b c d _ h
      simp [parseStructMembers] at h
    · intro a b c d _ h
      simp [parseDictMembers] at h
    · intro a b c _ h
      simp [parseTopLevel] at h
  | succ n ih =>
    obtain ⟨ih1, ih2, ih3, ih4⟩ := ih
    refine ⟨?_, ?_, ?_, ?_⟩
    · intro c rest t r h
      rw [parseOneType] at h
      unfold parseOneTypeF at h
      split at h
      · rename_i t0 hb
        simp at h
        obtain ⟨rfl, rfl⟩ := h
        exact basicType_arity c t0 hb
      · rename_i hb
        split at h
        · split at h
          · simp at h
          · rename_i c2 rest2
            split at h
            · simp at h
            · rename_i t0 r0 hp
              simp at h
              obtain ⟨rfl, rfl⟩ := h
              have := ih1 c2 rest2 t0 r0 hp
              simp [arityOk, arityOkList, this]
        · split at h
          · exact ih2 rest [] t r rfl h
          · split at h
            · exact ih3 rest [] t r rfl h
            · split at h
              · simp at h
              · simp at h
    · intro rest acc t r hacc h
      rw [parseStructMembers] at h
      unfold parseStructMembersF at h
      split at h
      · simp at h
      · rename_i c rest2
        split at h
        · split at h
          · simp at h
          · rename_i hne
            simp at h
            obtain ⟨rfl, rfl⟩ := h
            have : acc ≠ [] := by simpa [List.isEmpty_iff] using hne
            simp [arityOk, hacc]
            cases acc with
            | nil => exact absurd rfl this
            | cons x xs => simp
        · split at h
          · simp at h
          · rename_i t0 r0 hp
            have ht0 := ih1 c rest2 t0 r0 hp
            refine ih2 r0 (acc ++ [t0]) t r ?_ h
            simp [arityOkList_append, hacc, arityOkList, ht0]
    · intro rest acc t r hacc h
      rw [parseDictMembers] at h
      unfold parseDictMembersF at h
      split at h
      · simp at h
      · rename_i c rest2
        split at h
        · split at h
          · simp at h
          · rename_i hlen
            simp at h hlen
            obtain ⟨rfl, rfl⟩ := h
            simp [arityOk, hacc, hlen]
        · split at h
          · simp at h
          · rename_i t0 r0 hp
            split at h
            · simp at h
            · have ht0 := ih1 c rest2 t0 r0 hp
              refine ih3 r0 (acc ++ [t0]) t r ?_ h
              simp [arityOkList_append, hacc, arityOkList, ht0]
    · intro rest acc ts hacc h
      rw [parseTopLevel] at h
      unfold parseTopLevelF at h
      split at h
      · simp at h
        simp [h.symm, hacc]
      · rename_i c rest2
        split at h
        · simp at h
        · rename_i t0 r0 hp
          have ht0 := ih1 c rest2 t0 r0 hp
          refine ih4 r0 (acc ++ [t0]) ts ?_ h
          simp [arityOkList_append, hacc, arityOkList, ht0]

/-- A successful `_parse_one_type` call consumes at least the character
it was handed; the remaining suffix never grows. -/
theorem parseOneType_consumes (n : Nat) (c : Char) (rest : List Char)
    (t : DType) (r : List Char) (h : parseOneType n c rest = .ok (t, r)) :
    r.length ≤ rest.length := by
  obtain ⟨l, hl, hcons⟩ := (parse_render_aux n).1 c rest t r h
  have hne := renderType_ne_nil t l hl
  have hlen := congrArg List.length hcons
  cases l with
  | nil => exact absurd rfl hne
  | cons x xs =>
    simp at hlen
    omega

/-- With fuel at least twice the remaining input length (plus the slack
used by `parseFuel`), the parser never reports fuel exhaustion, so the
fuel embedding is faithful to the unbounded Python recursion. -/
theorem parse_fuel_aux : ∀ fuel : Nat,
    (∀ c rest, 2 * rest.length + 2 ≤ fuel →
      parseOneType fuel c rest ≠ .error fuelExhausted) ∧
    (∀ rest acc, 2 * rest.length + 1 ≤ fuel →
      parseStructMembers fuel rest acc ≠ .error fuelExhausted) ∧
    (∀ rest acc, 2 * rest.length + 1 ≤ fuel →
      parseDictMembers fuel rest acc ≠ .error fuelExhausted) ∧
    (∀ rest acc, 2 * rest.length + 2 ≤ fuel →
      parseTopLevel fuel rest acc ≠ .error fuelExhausted) := by
  intro fuel
  induction fuel with
  | zero =>
    refine ⟨?_, ?_, ?_, ?_⟩ <;> intro a b hb <;> omega
  | succ n ih =>
    obtain ⟨ih1, ih2, ih3, ih4⟩ := ih
    refine ⟨?_, ?_, ?_, ?_⟩
    · intro c rest hb heq
      rw [parseOneType] at heq
      unfold parseOneTypeF at heq
      split at heq
      · simp at heq
      · split at heq
        · split at heq
          · simp [typeIssue, fuelExhausted] at heq
          · rename_i c2 rest2
            split at heq
            · rename_i e hp
              simp at heq
              rw [heq] at hp
              exact ih1 c2 rest2 (by simp at hb ⊢; omega) hp
            · simp at heq
        · split at heq
          · exact ih2 rest [] (by omega) heq
          · split at heq
            · exact ih3 rest [] (by omega) heq
            · split at heq
              · simp [typeIssue, fuelExhausted] at heq
              · simp [typeIssue, fuelExhausted] at heq
    · intro rest acc hb heq
      rw [parseStructMembers] at heq
      unfold parseStructMembersF at heq
      split at heq
      · simp [typeIssue, fuelExhausted] at heq
      · rename_i c rest2
        split at heq
        · split at heq
          · simp [typeIssue, fuelExhausted] at heq
          · simp at heq
        · split at heq
          · rename_i e hp
            simp at heq
            rw [heq] at hp
            exact ih1 c rest2 (by simp at hb ⊢; omega) hp
          · rename_i t0 r0 hp
            have hc := parseOneType_consumes n c rest2 t0 r0 hp
            exact ih2 r0 (acc ++ [t0]) (by simp at hb ⊢; omega) heq
    · intro rest acc hb heq
      rw [parseDictMembers] at heq
      unfold parseDictMembersF at heq
      split at heq
      · simp [typeIssue, fuelExhausted] at heq
      · rename_i c rest2
        split at heq
        · split at heq
          · simp [typeIssue, fuelExhausted] at heq
          · simp at heq
        · split at heq
          · rename_i e hp
            simp at heq
            rw [heq] at hp
            exact ih1 c rest2 (by simp at hb ⊢; omega) hp
          · rename_i t0 r0 hp
            split at heq
            · simp [typeIssue, fuelExhausted] at heq
            · have hc := parseOneType_consumes n c rest2 t0 r0 hp
              exact ih3 r0 (acc ++ [t0]) (by simp at hb ⊢; omega) heq
    · intro rest acc hb heq
      rw [parseTopLevel] at heq
      unfold parseTopLevelF at heq
      split at heq
      · simp at heq
      · rename_i c rest2
        split at heq
        · rename_i e hp
          simp at heq
          rw [heq] at hp
          exact ih1 c rest2 (by simp at hb ⊢; omega) hp
        · rename_i t0 r0 hp
          have hc := parseOneType_consumes n c rest2 t0 r0 hp
          exact ih4 r0 (acc ++ [t0]) (by simp at hb ⊢; omega) heq

/-- `TypeParser.parse` never reports the fuel sentinel: the chosen fuel
budget is always sufficient. -/
theorem parse_no_fuel_error (s : String) :
    ∀ e ∈ (parseSignatureWithLog s).2, e ≠ fuelExhausted := by
  intro e he
  unfold parseSignatureWithLog at he
  split at he
  · simp at he
    simp [he, typeIssue, fuelExhausted]
  · rename_i hne
    cases hp : parseTopLevel (parseFuel s) s.toList [] with
    | ok ts => rw [hp] at he; simp at he
    | error e2 =>
      rw [hp] at he
      simp at he
      subst he
      intro hfe
      rw [hfe] at hp
      refine (parse_fuel_aux (parseFuel s)).2.2.2 s.toList [] ?_ hp
      simp [parseFuel]

/-- C1: for every string on which `TypeParser.parse` succeeds, rendering
the resulting `TypeSignature` back with `str()` reproduces the input
exactly. -/
theorem parse_render_roundtrip (s : String) (ts : TypeSignature)
    (h : parseSignature s = some ts) : renderSignature ts = some s := by
  unfold parseSignature parseSignatureWithLog at h
  split at h
  · simp at h
  · cases hp : parseTopLevel (parseFuel s) s.toList [] with
    | error e => rw [hp] at h; simp at h
    | ok l0 =>
      rw [hp] at h
      simp at h
      subst h
      obtain ⟨ms, l, hts, hrm, hrest⟩ := (parse_render_aux _).2.2.2 _ _ _ hp
      simp at hts
      subst hts
      unfold renderSignature
      rw [hrm, hrest.symm]
      rfl

/-- Witness for C1 at the signature string from the spec's Scenario A. -/
theorem parse_render_roundtrip_witness :
    renderSignature [DType.array [DType.dictEntry [DType.uint32, DType.string]],
      DType.int32] = some "a\x7bus\x7di" :=
  parse_render_roundtrip "a\x7bus\x7di" _ rfl

/-- C6 counterexample: a bare dictionary entry parses successfully at the
top level, so a DictEntry returned by a successful parse need not be the
sole child of an Array. -/
theorem dict_entry_placement_counterexample :
    parseSignature "\x7bss\x7d" =
      some [DType.dictEntry [DType.string, DType.string]] ∧
    dictPlacedList [DType.dictEntry [DType.string, DType.string]] = false :=
  ⟨rfl, rfl⟩

/-- C6 (amended): every `TypeSignature` returned by a successful
`TypeParser.parse` satisfies the container arity invariants (Array:
exactly one member, Struct: at least one, DictEntry: exactly two); the
sole-child-of-an-Array placement restriction on DictEntry is not enforced
by the parser. -/
theorem parse_arity_invariants (s : String) (ts : TypeSignature)
    (h : parseSignature s = some ts) : arityOkList ts = true := by
  unfold parseSignature parseSignatureWithLog at h
  split at h
  · simp at h
  · cases hp : parseTopLevel (parseFuel s) s.toList [] with
    | error e => rw [hp] at h; simp at h
    | ok l0 =>
      rw [hp] at h
      simp at h
      subst h
      exact (parse_arity_aux _).2.2.2 _ _ _ (by rfl) hp

/-- Witness for C6's amended theorem at a concrete parse. -/
theorem parse_arity_invariants_witness :
    arityOkList [DType.array [DType.dictEntry [DType.string, DType.string]]] =
      true :=
  parse_arity_invariants "a\x7bss\x7d" _ rfl

/-- C7: `"a{ss}"` parses to Array[DictEntry[String, String]]; a third
dictionary member before the closing brace yields the
`Invalid dictionary declaration.` diagnostic; too few members at the
closing brace or at end of input yield the
`Incomplete dictionary declaration.` diagnostic. -/
theorem dictionary_arity_diagnostics :
    parseSignatureWithLog "a\x7bss\x7d" =
      (some [DType.array [DType.dictEntry [DType.string, DType.string]]], []) ∧
    parseSignatureWithLog "a\x7bsss\x7d" =
      (none, [typeIssue "invalid-type" "Invalid dictionary declaration."]) ∧
    parseSignatureWithLog "a\x7bs\x7d" =
      (none, [typeIssue "invalid-type" "Incomplete dictionary declaration."]) ∧
    parseSignatureWithLog "a\x7bs" =
      (none, [typeIssue "invalid-type" "Incomplete dictionary declaration."]) :=
  ⟨rfl, rfl, rfl, rfl⟩

/-! ## The interface comparator (dbusdeviation/interfacecomparator.py)

The comparator walks two already-built AST trees.  Only the fields the
comparator reads are modelled: names, argument lists, property type and
access strings, and each node's annotation name→value mapping (Python
dicts become association lists; `alookup` is dict access by key, which
matches Python exactly when the keys are distinct, as they always are in
a dict). -/

/-- Python dict lookup by key over an association list. -/
def alookup (k : String) : List (String × α) → Option α
  | [] => none
  | (k2, v) :: t => if k2 = k then some v else alookup k t

/-- Annotation name → annotation value (`node.annotations[n].value`). -/
abbrev AnnotMap := List (String × String)

/-- An `ast.Argument` as read by the comparator: optional name, parsed
type (`None` when the type string failed to parse), direction string. -/
structure ArgNode where
  name : Option String
  typ : Option TypeSignature
  direction : String
  annots : AnnotMap

/-- An `ast.Method` or `ast.Signal` (both are `ast.Callable` and are
compared by the identical `_compare_methods` / `_compare_signals`). -/
structure CallableNode where
  name : String
  args : List ArgNode
  annots : AnnotMap

/-- An `ast.Property` as read by the comparator. -/
structure PropertyNode where
  name : String
  typ : Option TypeSignature
  access : String
  annots : AnnotMap

/-- An `ast.Interface` as read by the comparator; the three member
dicts are keyed by member name. -/
structure InterfaceNode where
  name : String
  methods : List (String × CallableNode)
  properties : List (String × PropertyNode)
  signals : List (String × CallableNode)
  annots : AnnotMap

/-- The `old_interfaces` / `new_interfaces` arguments of
`InterfaceComparator`: interface name → interface. -/
abbrev InterfaceMap := List (String × InterfaceNode)

/-- One element of `InterfaceComparator._output`:
`(new_filename, level, code, message)`. -/
structure OutEntry where
  filename : Option String
  level : String
  code : String
  message : String
  deriving Repr, DecidableEq

/-- `InterfaceComparator.OUTPUT_INFO`. -/
def OUTPUT_INFO : String := "info"

/-- `InterfaceComparator.OUTPUT_FORWARDS_INCOMPATIBLE`. -/
def OUTPUT_FORWARDS_INCOMPATIBLE : String := "forwards-compatibility"

/-- `InterfaceComparator.OUTPUT_BACKWARDS_INCOMPATIBLE`. -/
def OUTPUT_BACKWARDS_INCOMPATIBLE : String := "backwards-compatibility"

/-- `WARNING_CATEGORIES` (interfacecomparator.py line 28). -/
def WARNING_CATEGORIES : List String :=
  ["info", "backwards-compatibility", "forwards-compatibility"]

/-- Python `'%s' % name` for an optional argument name. -/
def showNameOpt : Option String → String
  | none => "None"
  | some s => s

/-- Python `'%s' % type` where `type` is a parsed `TypeSignature` or
`None`.  (`str(TypeSignature)` asserts the container arities; the
`getD ""` default is unreachable for parser-produced signatures.) -/
def showTypeOpt : Option TypeSignature → String
  | none => "None"
  | some ts => (renderSignature ts).getD ""

/-- Python `!=` on two optional parsed types (structural equality,
`TypeSignature.__eq__`). -/
def beqSigOpt : Option TypeSignature → Option TypeSignature → Bool
  | none, none => true
  | some a, some b => beqTypeList a b
  | _, _ => false

/-- `_get_bool_annotation`: the annotation's value compared to `'true'`,
or the default when absent. -/
def getBoolAnnot (annots : AnnotMap) (name : String) (dflt : Bool) : Bool :=
  match alookup name annots with
  | some v => v = "true"
  | none => dflt

/-- `_get_string_annotation`: the annotation's value, or the default. -/
def getStrAnnot (annots : AnnotMap) (name : String) (dflt : String) : String :=
  match alookup name annots with
  | some v => v
  | none => dflt

/-- The name of the EmitsChangedSignal annotation. -/
def ecsName : String := "org.freedesktop.DBus.Property.EmitsChangedSignal"

/-- `_get_ecs_annotation`: the node's own EmitsChangedSignal value if
present; else, when the node is a Property (`ifaceAnnots = some _`), its
owning interface's value; else the default `"true"`.  The recursion in
the Python is a single hop: the owning interface is not a Property, so
its own missing annotation falls through to `"true"`. -/
def getEcsValue (annots : AnnotMap) (ifaceAnnots : Option AnnotMap) : String :=
  match alookup ecsName annots with
  | some v => v
  | none =>
    match ifaceAnnots with
    | some ia =>
      match alookup ecsName ia with
      | some v => v
      | none => "true"
    | none => "true"

/-- The Deprecated comparison of `_compare_annotations` (lines 249-263),
parameterised on the two resolved boolean values. -/
def depBlock (fname : Option String) (oldPretty : String)
    (oldDep newDep : Bool) : List OutEntry :=
  if oldDep && !newDep then
    [⟨fname, OUTPUT_INFO, "undeprecated",
      "Node ‘" ++ oldPretty ++ "’ has been un-deprecated."⟩]
  else if !oldDep && newDep then
    [⟨fname, OUTPUT_INFO, "deprecated",
      "Node ‘" ++ oldPretty ++ "’ has been deprecated."⟩]
  else []

/-- The CSymbol comparison of `_compare_annotations` (lines 265-277). -/
def symBlock (fname : Option String) (oldPretty : String)
    (oldSym newSym : String) : List OutEntry :=
  if oldSym ≠ newSym then
    [⟨fname, OUTPUT_INFO, "c-symbol-changed",
      "Node ‘" ++ oldPretty ++ "’ has changed its C symbol from ‘" ++
      oldSym ++ "’ to ‘" ++ newSym ++ "’."⟩]
  else []

/-- The NoReply comparison of `_compare_annotations` (lines 279-295). -/
def replyBlock (fname : Option String) (oldPretty : String)
    (oldNoReply newNoReply : Bool) : List OutEntry :=
  if oldNoReply && !newNoReply then
    [⟨fname, OUTPUT_BACKWARDS_INCOMPATIBLE, "reply-added",
      "Node ‘" ++ oldPretty ++ "’ has been marked as returning a reply."⟩]
  else if !oldNoReply && newNoReply then
    [⟨fname, OUTPUT_BACKWARDS_INCOMPATIBLE, "reply-removed",
      "Node ‘" ++ oldPretty ++ "’ has been marked as not returning a reply."⟩]
  else []

/-- The EmitsChangedSignal 4×4 table of `_compare_annotations`
(lines 297-347), parameterised on the two resolved values. -/
def ecsBlock (fname : Option String) (oldPretty : String)
    (oldEcs newEcs : String) : List OutEntry :=
  let ecsCode := "ecs-changed-" ++ oldEcs ++ "-" ++ newEcs
  if (oldEcs = "true" ∨ oldEcs = "invalidates") ∧
     (newEcs = "false" ∨ newEcs = "const") then
    [⟨fname, OUTPUT_FORWARDS_INCOMPATIBLE, ecsCode,
      "Node ‘" ++ oldPretty ++ "’ stopped emitting " ++
      "org.freedesktop.DBus.Properties.PropertiesChanged."⟩]
  else if (oldEcs = "false" ∨ oldEcs = "const") ∧
          (newEcs = "true" ∨ newEcs = "invalidates") then
    [⟨fname, OUTPUT_BACKWARDS_INCOMPATIBLE, ecsCode,
      "Node ‘" ++ oldPretty ++ "’ started emitting " ++
      "org.freedesktop.DBus.Properties.PropertiesChanged."⟩]
  else if oldEcs = "true" ∧ newEcs = "invalidates" then
    [⟨fname, OUTPUT_BACKWARDS_INCOMPATIBLE, ecsCode,
      "Node ‘" ++ oldPretty ++ "’ stopped emitting its new value in " ++
      "org.freedesktop.DBus.Properties.PropertiesChanged."⟩]
  else if oldEcs = "invalidates" ∧ newEcs = "true" then
    [⟨fname, OUTPUT_BACKWARDS_INCOMPATIBLE, ecsCode,
      "Node ‘" ++ oldPretty ++ "’ started emitting its new value in " ++
      "org.freedesktop.DBus.Properties.PropertiesChanged."⟩]
  else if oldEcs = "const" ∧ newEcs = "false" then
    [⟨fname, OUTPUT_BACKWARDS_INCOMPATIBLE, ecsCode,
      "Node ‘" ++ oldPretty ++ "’ stopped being a constant."⟩]
  else if oldEcs = "false" ∧ newEcs = "const" then
    [⟨fname, OUTPUT_FORWARDS_INCOMPATIBLE, ecsCode,
      "Node ‘" ++ oldPretty ++ "’ became a constant."⟩]
  else []

/-- `InterfaceComparator._compare_annotations`: the four comparison
blocks in source order.  `oldIfaceAnnots`/`newIfaceAnnots` are the owning
interfaces' annotations when the compared nodes are Properties
(`isinstance(node, ast.Property)` in `_get_ecs_annotation`), else
`none`.  All messages use the old node's `format_name()`. -/
def compareAnnots (fname : Option String) (oldPretty : String)
    (oldAnnots newAnnots : AnnotMap)
    (oldIfaceAnnots newIfaceAnnots : Option AnnotMap) : List OutEntry :=
  depBlock fname oldPretty
    (getBoolAnnot oldAnnots "org.freedesktop.DBus.Deprecated" false)
    (getBoolAnnot newAnnots "org.freedesktop.DBus.Deprecated" false)
  ++ symBlock fname oldPretty
    (getStrAnnot oldAnnots "org.freedesktop.DBus.GLib.CSymbol" "")
    (getStrAnnot newAnnots "org.freedesktop.DBus.GLib.CSymbol" "")
  ++ replyBlock fname oldPretty
    (getBoolAnnot oldAnnots "org.freedesktop.DBus.Method.NoReply" false)
    (getBoolAnnot newAnnots "org.freedesktop.DBus.Method.NoReply" false)
  ++ ecsBlock fname oldPretty
    (getEcsValue oldAnnots oldIfaceAnnots)
    (getEcsValue newAnnots newIfaceAnnots)

/-- `Argument.pretty_name` for an argument attached to a callable at
index `idx` (the only shape the comparator sees): `'%u' % index` or
`'%u (‘name’)'`, then `' of <kind> ‘<callable>’'`. -/
def argPretty (idx : Nat) (name : Option String) (kind : String)
    (callablePretty : String) : String :=
  (match name with
   | none => toString idx
   | some n => toString idx ++ " (‘" ++ n ++ "’)")
  ++ " of " ++ kind ++ " ‘" ++ callablePretty ++ "’"

/-- `InterfaceComparator._compare_arguments`; `oldPretty` is the old
argument's `pretty_name`. -/
def compareArgs (fname : Option String) (oldPretty : String)
    (oldArg newArg : ArgNode) : List OutEntry :=
  (if oldArg.name ≠ newArg.name then
    [⟨fname, OUTPUT_INFO, "argument-name-changed",
      "Argument " ++ oldPretty ++ " has changed name from ‘" ++
      showNameOpt oldArg.name ++ "’ to ‘" ++ showNameOpt newArg.name ++ "’."⟩]
  else [])
  ++ (if !(beqSigOpt oldArg.typ newArg.typ) then
    [⟨fname, OUTPUT_BACKWARDS_INCOMPATIBLE, "argument-type-changed",
      "Argument " ++ oldPretty ++ " has changed type from ‘" ++
      showTypeOpt oldArg.typ ++ "’ to ‘" ++ showTypeOpt newArg.typ ++ "’."⟩]
  else [])
  ++ (if oldArg.direction ≠ newArg.direction then
    [⟨fname, OUTPUT_BACKWARDS_INCOMPATIBLE,
      "argument-direction-changed-" ++ oldArg.direction ++ "-" ++
        newArg.direction,
      "Argument " ++ oldPretty ++ " has changed direction from ‘" ++
      oldArg.direction ++ "’ to ‘" ++ newArg.direction ++ "’."⟩]
  else [])
  ++ compareAnnots fname oldPretty oldArg.annots newArg.annots none none

/-- Ordered concatenation of the outputs of `f` over `l` (a Python
`for` loop appending to the output list). -/
def collect : List α → (α → List β) → List β
  | [], _ => []
  | x :: xs, f => f x ++ collect xs f

/-- Placeholder argument for `List.getD`; every access in
`compareCallable` is guarded by the Python bounds checks. -/
def argDefault : ArgNode := ⟨none, none, "", []⟩

/-- `InterfaceComparator._compare_methods` and `_compare_signals`
(identical code): positional argument comparison up to
`max(n_old, n_new)`, then annotations.  `kind` is `"method"` or
`"signal"` (`type(parent).__name__.lower()` in `Argument.pretty_name`). -/
def compareCallable (fname : Option String) (kind : String)
    (oldIfaceName newIfaceName : String)
    (oldC newC : CallableNode) : List OutEntry :=
  let nOld := oldC.args.length
  let nNew := newC.args.length
  let oldPretty := oldIfaceName ++ "." ++ oldC.name
  let newPretty := newIfaceName ++ "." ++ newC.name
  collect (List.range (max nOld nNew)) (fun i =>
    if nOld ≤ i then
      [⟨fname, OUTPUT_BACKWARDS_INCOMPATIBLE, "argument-added",
        "Argument " ++
        argPretty i (newC.args.getD i argDefault).name kind newPretty ++
        " has been added."⟩]
    else if nNew ≤ i then
      [⟨fname, OUTPUT_BACKWARDS_INCOMPATIBLE, "argument-removed",
        "Argument " ++
        argPretty i (oldC.args.getD i argDefault).name kind oldPretty ++
        " has been removed."⟩]
    else
      compareArgs fname
        (argPretty i (oldC.args.getD i argDefault).name kind oldPretty)
        (oldC.args.getD i argDefault) (newC.args.getD i argDefault))
  ++ compareAnnots fname oldPretty oldC.annots newC.annots none none

/-- `InterfaceComparator._compare_properties`: `ACCESS_READ = 'read'`,
`ACCESS_WRITE = 'write'`, `ACCESS_READWRITE = 'readwrite'` (ast.py). -/
def compareProps (fname : Option String)
    (oldIfaceName newIfaceName : String)
    (oldIfaceAnnots newIfaceAnnots : AnnotMap)
    (oldP newP : PropertyNode) : List OutEntry :=
  let oldPretty := oldIfaceName ++ "." ++ oldP.name
  (if !(beqSigOpt oldP.typ newP.typ) then
    [⟨fname, OUTPUT_BACKWARDS_INCOMPATIBLE, "property-type-changed",
      "Property ‘" ++ oldPretty ++ "’ has changed type from ‘" ++
      showTypeOpt oldP.typ ++ "’ to ‘" ++ showTypeOpt newP.typ ++ "’."⟩]
  else [])
  ++ (if (oldP.access = "read" ∨ oldP.access = "write") ∧
         newP.access = "readwrite" then
    [⟨fname, OUTPUT_FORWARDS_INCOMPATIBLE,
      "property-access-changed-" ++ oldP.access ++ "-" ++ newP.access,
      "Property ‘" ++ oldPretty ++ "’ has changed access from ‘" ++
      oldP.access ++ "’ to ‘" ++ newP.access ++ "’, becoming less restrictive."⟩]
  else if oldP.access ≠ newP.access then
    [⟨fname, OUTPUT_BACKWARDS_INCOMPATIBLE,
      "property-access-changed-" ++ oldP.access ++ "-" ++ newP.access,
      "Property ‘" ++ oldPretty ++ "’ has changed access from ‘" ++
      oldP.access ++ "’ to ‘" ++ newP.access ++ "’."⟩]
  else [])
  ++ compareAnnots fname oldPretty oldP.annots newP.annots
    (some oldIfaceAnnots) (some newIfaceAnnots)

/-- An interface-removed diagnostic (`compare()` old loop). -/
def ifaceRemovedEntry (f : Option String) (n : String) : OutEntry :=
  ⟨f, OUTPUT_BACKWARDS_INCOMPATIBLE, "interface-removed",
    "Interface ‘" ++ n ++ "’ has been removed."⟩

/-- An interface-added diagnostic (`compare()` new loop). -/
def ifaceAddedEntry (f : Option String) (n : String) : OutEntry :=
  ⟨f, OUTPUT_FORWARDS_INCOMPATIBLE, "interface-added",
    "Interface ‘" ++ n ++ "’ has been added."⟩

/-- A member-removed diagnostic of `_compare_interfaces` (`label` is
`Method`, `Property` or `Signal`; the member's `format_name()` is
`iname.mname`). -/
def memberRemovedEntry (f : Option String) (label code iname mname : String) :
    OutEntry :=
  ⟨f, OUTPUT_BACKWARDS_INCOMPATIBLE, code,
    label ++ " ‘" ++ iname ++ "." ++ mname ++ "’ has been removed."⟩

/-- A member-added diagnostic of `_compare_interfaces`. -/
def memberAddedEntry (f : Option String) (label code iname mname : String) :
    OutEntry :=
  ⟨f, OUTPUT_FORWARDS_INCOMPATIBLE, code,
    label ++ " ‘" ++ iname ++ "." ++ mname ++ "’ has been added."⟩

/-- The method loop over the old interface (`_compare_interfaces`
lines 356-363): removed methods, or recursion into matched pairs. -/
def methodsRemovedLoop (fname : Option String)
    (oldI newI : InterfaceNode) : List OutEntry :=
  collect oldI.methods (fun p =>
    match alookup p.1 newI.methods with
    | none =>
      [memberRemovedEntry fname "Method" "method-removed" oldI.name p.2.name]
    | some m2 => compareCallable fname "method" oldI.name newI.name p.2 m2)

/-- The method loop over the new interface (lines 365-370). -/
def methodsAddedLoop (fname : Option String)
    (oldI newI : InterfaceNode) : List OutEntry :=
  collect newI.methods (fun p =>
    if (alookup p.1 oldI.methods).isSome then []
    else
      [memberAddedEntry fname "Method" "method-added" newI.name p.2.name])

/-- The property loop over the old interface (lines 373-380). -/
def propertiesRemovedLoop (fname : Option String)
    (oldI newI : InterfaceNode) : List OutEntry :=
  collect oldI.properties (fun p =>
    match alookup p.1 newI.properties with
    | none =>
      [memberRemovedEntry fname "Property" "property-removed" oldI.name
        p.2.name]
    | some p2 =>
      compareProps fname oldI.name newI.name oldI.annots newI.annots p.2 p2)

/-- The property loop over the new interface (lines 382-387). -/
def propertiesAddedLoop (fname : Option String)
    (oldI newI : InterfaceNode) : List OutEntry :=
  collect newI.properties (fun p =>
    if (alookup p.1 oldI.properties).isSome then []
    else
      [memberAddedEntry fname "Property" "property-added" newI.name p.2.name])

/-- The signal loop over the old interface (lines 390-398). -/
def signalsRemovedLoop (fname : Option String)
    (oldI newI : InterfaceNode) : List OutEntry :=
  collect oldI.signals (fun p =>
    match alookup p.1 newI.signals with
    | none =>
      [memberRemovedEntry fname "Signal" "signal-removed" oldI.name p.2.name]
    | some s2 => compareCallable fname "signal" oldI.name newI.name p.2 s2)

/-- The signal loop over the new interface (lines 400-405). -/
def signalsAddedLoop (fname : Option String)
    (oldI newI : InterfaceNode) : List OutEntry :=
  collect newI.signals (fun p =>
    if (alookup p.1 oldI.signals).isSome then []
    else
      [memberAddedEntry fname "Signal" "signal-added" newI.name p.2.name])

/-- `InterfaceComparator._compare_interfaces`: methods (removed/matched,
then added), properties, signals, then the interfaces' own annotations. -/
def compareIfaces (fname : Option String)
    (oldI newI : InterfaceNode) : List OutEntry :=
  methodsRemovedLoop fname oldI newI
  ++ methodsAddedLoop fname oldI newI
  ++ propertiesRemovedLoop fname oldI newI
  ++ propertiesAddedLoop fname oldI newI
  ++ signalsRemovedLoop fname oldI newI
  ++ signalsAddedLoop fname oldI newI
  ++ compareAnnots fname oldI.name oldI.annots newI.annots none none

/-- The loop of `compare()` over the old interfaces (lines 175-183). -/
def treesRemovedLoop (fname : Option String)
    (oldIs newIs : InterfaceMap) : List OutEntry :=
  collect oldIs (fun p =>
    match alookup p.1 newIs with
    | none => [ifaceRemovedEntry fname p.1]
    | some i2 => compareIfaces fname p.2 i2)

/-- The loop of `compare()` over the new interfaces (lines 185-190). -/
def treesAddedLoop (fname : Option String)
    (oldIs newIs : InterfaceMap) : List OutEntry :=
  collect newIs (fun p =>
    if (alookup p.1 oldIs).isSome then []
    else [ifaceAddedEntry fname p.1])

/-- The body of `InterfaceComparator.compare()`: old interfaces
(removed/matched) then new interfaces (added); this is the raw
`_output` list before warning filtering. -/
def compareTrees (fname : Option String)
    (oldIs newIs : InterfaceMap) : List OutEntry :=
  treesRemovedLoop fname oldIs newIs ++ treesAddedLoop fname oldIs newIs

/-- `InterfaceComparator._warning_enabled`. -/
def warningEnabled (enabled disabled : List String)
    (level code : String) : Bool :=
  (enabled.contains level && !(disabled.contains level) &&
    !(disabled.contains code)) ||
  (enabled.contains code && !(disabled.contains code))

/-- `InterfaceComparator.get_output`: the raw output filtered by the
enabled/disabled warning lists. -/
def getOutput (enabled disabled : List String)
    (entries : List OutEntry) : List OutEntry :=
  entries.filter (fun e => warningEnabled enabled disabled e.level e.code)

/-- `InterfaceComparator.compare()` with explicit warning configuration
(constructor defaults: `enabled = WARNING_CATEGORIES`, `disabled = []`). -/
def compare (enabled disabled : List String) (fname : Option String)
    (oldIs newIs : InterfaceMap) : List OutEntry :=
  getOutput enabled disabled (compareTrees fname oldIs newIs)

/-- `compare()` under the constructor's default warning configuration. -/
def compareDefault (fname : Option String)
    (oldIs newIs : InterfaceMap) : List OutEntry :=
  compare WARNING_CATEGORIES [] fname oldIs newIs

/-! ## Comparator lemmas: self-comparison (C2) -/

/-- A mapping modelled as an association list stands for a Python dict
exactly when its keys are distinct. -/
def keysNodup (l : List (String × α)) : Prop := (l.map Prod.fst).Nodup

/-- A well-formed interface mapping: distinct interface names, and
distinct member names within each interface's method/property/signal
dicts. -/
def WellFormedMap (m : InterfaceMap) : Prop :=
  keysNodup m ∧ ∀ p ∈ m, keysNodup p.2.methods ∧ keysNodup p.2.properties ∧
    keysNodup p.2.signals

set_option maxHeartbeats 1600000

mutual
theorem beqType_refl : ∀ t : DType, beqType t t = true
  | .byte => rfl
  | .boolean => rfl
  | .int16 => rfl
  | .uint16 => rfl
  | .int32 => rfl
  | .uint32 => rfl
  | .int64 => rfl
  | .uint64 => rfl
  | .double => rfl
  | .string => rfl
  | .objectPath => rfl
  | .signature => rfl
  | .variant => rfl
  | .unixFD => rfl
  | .array ms => by rw [beqType]; exact beqTypeList_refl ms
  | .struct ms => by rw [beqType]; exact beqTypeList_refl ms
  | .dictEntry ms => by rw [beqType]; exact beqTypeList_refl ms

theorem beqTypeList_refl : ∀ l : List DType, beqTypeList l l = true
  | [] => rfl
  | t :: ts => by
    rw [beqTypeList]
    simp [beqType_refl t, beqTypeList_refl ts]
end

set_option maxHeartbeats 200000

theorem beqSigOpt_refl : ∀ o : Option TypeSignature, beqSigOpt o o = true
  | none => rfl
  | some ts => beqTypeList_refl ts

theorem depBlock_self (f : Option String) (p : String) (d : Bool) :
    depBlock f p d d = [] := by
  cases d <;> rfl

theorem symBlock_self (f : Option String) (p s : String) :
    symBlock f p s s = [] := by
  simp [symBlock]

theorem replyBlock_self (f : Option String) (p : String) (d : Bool) :
    replyBlock f p d d = [] := by
  cases d <;> rfl

theorem ecsBlock_self (f : Option String) (p e : String) :
    ecsBlock f p e e = [] := by
  unfold ecsBlock
  split_ifs with h1 h2 h3 h4 h5 h6
  · obtain ⟨ha, hb⟩ := h1
    rcases ha with rfl | rfl <;> rcases hb with hb | hb <;> simp at hb
  · obtain ⟨ha, hb⟩ := h2
    rcases ha with rfl | rfl <;> rcases hb with hb | hb <;> simp at hb
  · obtain ⟨rfl, hb⟩ := h3
    simp at hb
  · obtain ⟨rfl, hb⟩ := h4
    simp at hb
  · obtain ⟨rfl, hb⟩ := h5
    simp at hb
  · obtain ⟨rfl, hb⟩ := h6
    simp at hb
  · rfl

theorem compareAnnots_self (f : Option String) (p : String) (a : AnnotMap)
    (ic : Option AnnotMap) : compareAnnots f p a a ic ic = [] := by
  unfold compareAnnots
  rw [depBlock_self, symBlock_self, replyBlock_self, ecsBlock_self]
  rfl

theorem compareArgs_self (f : Option String) (p : String) (a : ArgNode) :
    compareArgs f p a a = [] := by
  simp [compareArgs, beqSigOpt_refl, compareAnnots_self]

theorem collect_nil (f : α → List β) : collect [] f = [] := rfl

theorem collect_cons (x : α) (xs : List α) (f : α → List β) :
    collect (x :: xs) f = f x ++ collect xs f := rfl

theorem collect_eq_nil (l : List α) (f : α → List β)
    (h : ∀ x ∈ l, f x = []) : collect l f = [] := by
  induction l with
  | nil => rfl
  | cons x xs ih =>
    rw [collect_cons, h x (by simp),
      ih (fun y hy => h y (List.mem_cons_of_mem x hy))]
    rfl

theorem alookup_self (l : List (String × α)) (hnd : keysNodup l)
    (k : String) (v : α) (hm : (k, v) ∈ l) : alookup k l = some v := by
  induction l with
  | nil => simp at hm
  | cons p t ih =>
    obtain ⟨k2, v2⟩ := p
    simp only [keysNodup, List.map_cons, List.nodup_cons] at hnd
    obtain ⟨hnotin, hnd2⟩ := hnd
    unfold alookup
    rcases List.mem_cons.mp hm with heq | hmem
    · cases heq
      simp
    · have hne : k2 ≠ k := by
        intro h2
        subst h2
        exact hnotin (List.mem_map.mpr ⟨(k2, v), hmem, rfl⟩)
      simp only [if_neg hne]
      exact ih hnd2 hmem

theorem compareCallable_self (f : Option String) (kind nm : String)
    (c : CallableNode) : compareCallable f kind nm nm c c = [] := by
  unfold compareCallable
  simp only [Nat.max_self, compareAnnots_self, List.append_nil]
  apply collect_eq_nil
  intro i hi
  simp only [List.mem_range] at hi
  rw [if_neg (by omega), if_neg (by omega)]
  exact compareArgs_self _ _ _

theorem compareProps_self (f : Option String) (nm : String) (ia : AnnotMap)
    (p : PropertyNode) : compareProps f nm nm ia ia p p = [] := by
  unfold compareProps
  simp only [compareAnnots_self, List.append_nil, beqSigOpt_refl,
    Bool.not_true, Bool.false_eq_true, if_false]
  split_ifs with h1 h2
  · obtain ⟨ha, hb⟩ := h1
    rcases ha with ha | ha <;> rw [ha] at hb <;> simp at hb
  · exact absurd rfl h2
  · rfl

theorem compareIfaces_self (f : Option String) (i : InterfaceNode)
    (hm : keysNodup i.methods) (hp : keysNodup i.properties)
    (hs : keysNodup i.signals) : compareIfaces f i i = [] := by
  unfold compareIfaces methodsRemovedLoop methodsAddedLoop
    propertiesRemovedLoop propertiesAddedLoop signalsRemovedLoop
    signalsAddedLoop
  rw [compareAnnots_self,
    collect_eq_nil i.methods _ (fun p hp2 => by
      rw [alookup_self i.methods hm p.1 p.2 hp2]
      exact compareCallable_self f "method" i.name p.2),
    collect_eq_nil i.methods _ (fun p hp2 => by
      rw [alookup_self i.methods hm p.1 p.2 hp2]
      rfl),
    collect_eq_nil i.properties _ (fun p hp2 => by
      rw [alookup_self i.properties hp p.1 p.2 hp2]
      exact compareProps_self f i.name i.annots p.2),
    collect_eq_nil i.properties _ (fun p hp2 => by
      rw [alookup_self i.properties hp p.1 p.2 hp2]
      rfl),
    collect_eq_nil i.signals _ (fun p hp2 => by
      rw [alookup_self i.signals hs p.1 p.2 hp2]
      exact compareCallable_self f "signal" i.name p.2),
    collect_eq_nil i.signals _ (fun p hp2 => by
      rw [alookup_self i.signals hs p.1 p.2 hp2]
      rfl)]
  rfl

/-- C2: comparing a well-formed interface mapping against itself under
the default (all categories enabled) warning configuration returns the
empty diagnostic list. -/
theorem compare_self_empty (fname : Option String) (m : InterfaceMap)
    (h : WellFormedMap m) : compareDefault fname m m = [] := by
  obtain ⟨hnd, hifs⟩ := h
  have hraw : compareTrees fname m m = [] := by
    unfold compareTrees treesRemovedLoop treesAddedLoop
    rw [collect_eq_nil m _ (fun p hp => by
        rw [alookup_self m hnd p.1 p.2 hp]
        obtain ⟨h1, h2, h3⟩ := hifs p hp
        exact compareIfaces_self fname p.2 h1 h2 h3),
      collect_eq_nil m _ (fun p hp => by
        rw [alookup_self m hnd p.1 p.2 hp]
        rfl)]
    rfl
  unfold compareDefault compare getOutput
  rw [hraw]
  rfl

/-- Witness for C2 at a small concrete tree exercising every node kind. -/
theorem compare_self_empty_witness :
    WellFormedMap
      [("Com.Example.Iface",
        { name := "Com.Example.Iface",
          methods := [("M",
            { name := "M",
              args := [{ name := some "x", typ := some [DType.int32],
                         direction := "in", annots := [] }],
              annots := [("org.freedesktop.DBus.Deprecated", "true")] })],
          properties := [("P",
            { name := "P", typ := some [DType.string], access := "read",
              annots := [] })],
          signals := [("S", { name := "S", args := [], annots := [] })],
          annots := [(ecsName, "const")] })] ∧
    compareDefault none
      [("Com.Example.Iface",
        { name := "Com.Example.Iface",
          methods := [("M",
            { name := "M",
              args := [{ name := some "x", typ := some [DType.int32],
                         direction := "in", annots := [] }],
              annots := [("org.freedesktop.DBus.Deprecated", "true")] })],
          properties := [("P",
            { name := "P", typ := some [DType.string], access := "read",
              annots := [] })],
          signals := [("S", { name := "S", args := [], annots := [] })],
          annots := [(ecsName, "const")] })]
      [("Com.Example.Iface",
        { name := "Com.Example.Iface",
          methods := [("M",
            { name := "M",
              args := [{ name := some "x", typ := some [DType.int32],
                         direction := "in", annots := [] }],
              annots := [("org.freedesktop.DBus.Deprecated", "true")] })],
          properties := [("P",
            { name := "P", typ := some [DType.string], access := "read",
              annots := [] })],
          signals := [("S", { name := "S", args := [], annots := [] })],
          annots := [(ecsName, "const")] })] = [] :=
  ⟨by constructor <;> simp [keysNodup], compare_self_empty none _
    ⟨by simp [keysNodup], by simp [keysNodup]⟩⟩

/-! ## String-prefix utilities for classifying diagnostic codes

Some diagnostic codes are built at runtime by appending the changed
values to a fixed prefix (`ecs-changed-…`, `property-access-changed-…`,
`argument-direction-changed-…`); these lemmas separate such codes from
the fixed ones. -/

/-- Character-level string prefix test. -/
def strIsPrefix (a b : String) : Bool := a.data.isPrefixOf b.data

theorem strIsPrefix_append (a x : String) : strIsPrefix a (a ++ x) = true := by
  unfold strIsPrefix
  rw [String.data_append]
  exact List.isPrefixOf_iff_prefix.mpr (List.prefix_append _ _)

theorem append_ne_of_not_prefix (a x b : String)
    (h : strIsPrefix a b = false) : a ++ x ≠ b := by
  intro heq
  rw [← heq, strIsPrefix_append] at h
  simp at h

theorem prefixes_comparable (a b c : String) (ha : strIsPrefix a c = true)
    (hb : strIsPrefix b c = true) :
    strIsPrefix a b = true ∨ strIsPrefix b a = true := by
  unfold strIsPrefix at *
  rcases List.prefix_or_prefix_of_prefix (List.isPrefixOf_iff_prefix.mp ha)
      (List.isPrefixOf_iff_prefix.mp hb) with h | h
  · exact Or.inl (List.isPrefixOf_iff_prefix.mpr h)
  · exact Or.inr (List.isPrefixOf_iff_prefix.mpr h)

/-- The codes produced by the EmitsChangedSignal table all start with
`ecs-changed-`. -/
def isEcsCode (c : String) : Bool := strIsPrefix "ecs-changed-" c

/-- The code shapes `_compare_annotations` can produce. -/
def annotCmpCode (c : String) : Prop :=
  c ∈ (["undeprecated", "deprecated", "c-symbol-changed", "reply-added",
        "reply-removed"] : List String) ∨ isEcsCode c = true

/-- The code shapes `_compare_arguments` can produce. -/
def argCmpCode (c : String) : Prop :=
  c ∈ (["argument-name-changed", "argument-type-changed"] : List String) ∨
  strIsPrefix "argument-direction-changed-" c = true ∨ annotCmpCode c

/-- The code shapes `_compare_properties` can produce. -/
def propCmpCode (c : String) : Prop :=
  c = "property-type-changed" ∨
  strIsPrefix "property-access-changed-" c = true ∨ annotCmpCode c

/-- The entry shapes `_compare_methods` / `_compare_signals` can
produce: argument added/removed entries are always
backwards-incompatible, everything else is an argument or annotation
comparison code. -/
def callableCmpEntry (e : OutEntry) : Prop :=
  ((e.code = "argument-added" ∨ e.code = "argument-removed") ∧
    e.level = OUTPUT_BACKWARDS_INCOMPATIBLE) ∨ argCmpCode e.code

/-- The entry shapes `_compare_interfaces` can produce. -/
def ifaceCmpEntry (e : OutEntry) : Prop :=
  ((e.code ∈ (["method-removed", "property-removed", "signal-removed"] :
      List String)) ∧ e.level = OUTPUT_BACKWARDS_INCOMPATIBLE) ∨
  ((e.code ∈ (["method-added", "property-added", "signal-added"] :
      List String)) ∧ e.level = OUTPUT_FORWARDS_INCOMPATIBLE) ∨
  callableCmpEntry e ∨ propCmpCode e.code

theorem mem_collect {l : List α} {f : α → List β} {e : β} :
    e ∈ collect l f ↔ ∃ x ∈ l, e ∈ f x := by
  induction l with
  | nil => simp [collect]
  | cons x xs ih => simp [collect_cons, ih]

theorem collect_congr (l : List α) (f g : α → List β)
    (h : ∀ x ∈ l, f x = g x) : collect l f = collect l g := by
  induction l with
  | nil => rfl
  | cons x xs ih =>
    rw [collect_cons, collect_cons, h x (by simp),
      ih (fun y hy => h y (List.mem_cons_of_mem x hy))]

theorem filter_collect (p : β → Bool) (l : List α) (f : α → List β) :
    (collect l f).filter p = collect l (fun x => (f x).filter p) := by
  induction l with
  | nil => rfl
  | cons x xs ih => rw [collect_cons, List.filter_append, ih, collect_cons]

theorem collect_ite_singleton (l : List α) (q : α → Bool) (h : α → β) :
    collect l (fun x => if q x then [h x] else []) =
      (l.filter q).map h := by
  induction l with
  | nil => rfl
  | cons x xs ih =>
    rw [collect_cons, ih]
    by_cases hq : q x <;> simp [hq]

theorem depBlock_code (f : Option String) (p : String) (a b : Bool)
    (e : OutEntry) (he : e ∈ depBlock f p a b) :
    e.code = "undeprecated" ∨ e.code = "deprecated" := by
  cases a <;> cases b <;> simp [depBlock] at he <;> subst he <;> simp

theorem symBlock_code (f : Option String) (p os ns : String)
    (e : OutEntry) (he : e ∈ symBlock f p os ns) :
    e.code = "c-symbol-changed" := by
  unfold symBlock at he
  split at he <;> simp at he
  subst he
  rfl

theorem replyBlock_code (f : Option String) (p : String) (a b : Bool)
    (e : OutEntry) (he : e ∈ replyBlock f p a b) :
    e.code = "reply-added" ∨ e.code = "reply-removed" := by
  cases a <;> cases b <;> simp [replyBlock] at he <;> subst he <;> simp

theorem ecs_code_isPrefix (oe ne : String) :
    isEcsCode ("ecs-changed-" ++ oe ++ "-" ++ ne) = true := by
  unfold isEcsCode
  rw [String.append_assoc, String.append_assoc]
  exact strIsPrefix_append _ _

theorem ecsBlock_code (f : Option String) (p oe ne : String)
    (e : OutEntry) (he : e ∈ ecsBlock f p oe ne) :
    isEcsCode e.code = true := by
  unfold ecsBlock at he
  split_ifs at he <;> simp at he <;> subst he <;> exact ecs_code_isPrefix oe ne

theorem compareAnnots_code (f : Option String) (p : String)
    (oa na : AnnotMap) (oia nia : Option AnnotMap) (e : OutEntry)
    (he : e ∈ compareAnnots f p oa na oia nia) : annotCmpCode e.code := by
  unfold compareAnnots at he
  simp only [List.mem_append] at he
  rcases he with ((h | h) | h) | h
  · rcases depBlock_code _ _ _ _ _ h with h2 | h2 <;> simp [annotCmpCode, h2]
  · simp [annotCmpCode, symBlock_code _ _ _ _ _ h]
  · rcases replyBlock_code _ _ _ _ _ h with h2 | h2 <;>
      simp [annotCmpCode, h2]
  · exact Or.inr (ecsBlock_code _ _ _ _ _ h)

theorem compareArgs_code (f : Option String) (p : String) (a b : ArgNode)
    (e : OutEntry) (he : e ∈ compareArgs f p a b) : argCmpCode e.code := by
  unfold compareArgs at he
  simp only [List.mem_append] at he
  rcases he with ((h | h) | h) | h
  · split at h <;> simp at h
    subst h
    simp [argCmpCode]
  · split at h <;> simp at h
    subst h
    simp [argCmpCode]
  · split at h <;> simp at h
    subst h
    refine Or.inr (Or.inl ?_)
    show strIsPrefix "argument-direction-changed-"
      ("argument-direction-changed-" ++ a.direction ++ "-" ++ b.direction) =
        true
    rw [String.append_assoc, String.append_assoc]
    exact strIsPrefix_append _ _
  · exact Or.inr (Or.inr (compareAnnots_code _ _ _ _ _ _ _ h))

theorem compareCallable_entry (f : Option String) (kind onm nnm : String)
    (oc nc : CallableNode) (e : OutEntry)
    (he : e ∈ compareCallable f kind onm nnm oc nc) : callableCmpEntry e := by
  unfold compareCallable at he
  simp only [List.mem_append] at he
  rcases he with h | h
  · rcases mem_collect.mp h with ⟨i, _, hi⟩
    split at hi
    · simp at hi
      subst hi
      exact Or.inl ⟨Or.inl rfl, rfl⟩
    · split at hi
      · simp at hi
        subst hi
        exact Or.inl ⟨Or.inr rfl, rfl⟩
      · exact Or.inr (compareArgs_code _ _ _ _ _ hi)
  · exact Or.inr (Or.inr (Or.inr (compareAnnots_code _ _ _ _ _ _ _ h)))

theorem compareProps_code (f : Option String) (onm nnm : String)
    (oia nia : AnnotMap) (op np : PropertyNode) (e : OutEntry)
    (he : e ∈ compareProps f onm nnm oia nia op np) : propCmpCode e.code := by
  unfold compareProps at he
  simp only [List.mem_append] at he
  rcases he with (h | h) | h
  · split at h <;> simp at h
    subst h
    simp [propCmpCode]
  · split_ifs at h <;> simp at h <;> subst h <;>
      refine Or.inr (Or.inl ?_) <;>
      (show strIsPrefix "property-access-changed-"
        ("property-access-changed-" ++ op.access ++ "-" ++ np.access) = true) <;>
      rw [String.append_assoc, String.append_assoc] <;>
      exact strIsPrefix_append _ _
  · exact Or.inr (Or.inr (compareAnnots_code _ _ _ _ _ _ _ h))

theorem compareIfaces_entry (f : Option String) (oi ni : InterfaceNode)
    (e : OutEntry) (he : e ∈ compareIfaces f oi ni) : ifaceCmpEntry e := by
  unfold compareIfaces at he
  simp only [List.mem_append] at he
  rcases he with ((((((h | h) | h) | h) | h) | h) | h)
  · rcases mem_collect.mp h with ⟨x, _, hx⟩
    split at hx
    · simp at hx
      subst hx
      exact Or.inl ⟨by simp [memberRemovedEntry], rfl⟩
    · exact Or.inr (Or.inr (Or.inl (compareCallable_entry _ _ _ _ _ _ _ hx)))
  · rcases mem_collect.mp h with ⟨x, _, hx⟩
    split at hx
    · simp at hx
    · simp at hx
      subst hx
      exact Or.inr (Or.inl ⟨by simp [memberAddedEntry], rfl⟩)
  · rcases mem_collect.mp h with ⟨x, _, hx⟩
    split at hx
    · simp at hx
      subst hx
      exact Or.inl ⟨by simp [memberRemovedEntry], rfl⟩
    · exact Or.inr (Or.inr (Or.inr (compareProps_code _ _ _ _ _ _ _ _ hx)))
  · rcases mem_collect.mp h with ⟨x, _, hx⟩
    split at hx
    · simp at hx
    · simp at hx
      subst hx
      exact Or.inr (Or.inl ⟨by simp [memberAddedEntry], rfl⟩)
  · rcases mem_collect.mp h with ⟨x, _, hx⟩
    split at hx
    · simp at hx
      subst hx
      exact Or.inl ⟨by simp [memberRemovedEntry], rfl⟩
    · exact Or.inr (Or.inr (Or.inl (compareCallable_entry _ _ _ _ _ _ _ hx)))
  · rcases mem_collect.mp h with ⟨x, _, hx⟩
    split at hx
    · simp at hx
    · simp at hx
      subst hx
      exact Or.inr (Or.inl ⟨by simp [memberAddedEntry], rfl⟩)
  · rcases compareAnnots_code _ _ _ _ _ _ _ h with h2 | h2
    · exact Or.inr (Or.inr (Or.inl (Or.inr (Or.inr (Or.inr (Or.inl h2))))))
    · exact Or.inr (Or.inr (Or.inl (Or.inr (Or.inr (Or.inr (Or.inr h2))))))

theorem annotCmpCode_ne (c target : String) (h : annotCmpCode c)
    (hs : target ∉ (["undeprecated", "deprecated", "c-symbol-changed",
      "reply-added", "reply-removed"] : List String))
    (he : isEcsCode target = false) : c ≠ target := by
  intro heq
  subst heq
  rcases h with h | h
  · exact hs h
  · simp [he] at h

theorem annotCmpCode_not_prefix (c pre : String) (h : annotCmpCode c)
    (hs : ∀ x ∈ (["undeprecated", "deprecated", "c-symbol-changed",
      "reply-added", "reply-removed"] : List String),
      strIsPrefix pre x = false)
    (h1 : strIsPrefix pre "ecs-changed-" = false)
    (h2 : strIsPrefix "ecs-changed-" pre = false) :
    strIsPrefix pre c = false := by
  by_contra hp
  rw [Bool.not_eq_false] at hp
  rcases h with h | h
  · simp [hs c h] at hp
  · rcases prefixes_comparable _ _ _ hp h with hcomp | hcomp
    · simp [h1] at hcomp
    · simp [h2] at hcomp

/-- The property-type-changed diagnostics among a comparison output. -/
def propTypeDiags (out : List OutEntry) : List OutEntry :=
  out.filter (fun e => e.code = "property-type-changed")

/-- The property-access-changed diagnostics among a comparison output. -/
def propAccessDiags (out : List OutEntry) : List OutEntry :=
  out.filter (fun e => strIsPrefix "property-access-changed-" e.code)

theorem compareProps_typeDiags (fname : Option String)
    (oIN nIN : String) (oIA nIA : AnnotMap) (p q : PropertyNode) :
    propTypeDiags (compareProps fname oIN nIN oIA nIA p q) =
      if beqSigOpt p.typ q.typ then []
      else
        [⟨fname, OUTPUT_BACKWARDS_INCOMPATIBLE, "property-type-changed",
          "Property ‘" ++ (oIN ++ "." ++ p.name) ++
          "’ has changed type from ‘" ++ showTypeOpt p.typ ++ "’ to ‘" ++
          showTypeOpt q.typ ++ "’."⟩] := by
  unfold propTypeDiags compareProps
  rw [List.filter_append, List.filter_append]
  have hne : "property-access-changed-" ++ p.access ++ "-" ++ q.access ≠
      "property-type-changed" := by
    rw [String.append_assoc, String.append_assoc]
    exact append_ne_of_not_prefix _ _ _ (by decide)
  have hacc : (if (p.access = "read" ∨ p.access = "write") ∧
        q.access = "readwrite" then
        [(⟨fname, OUTPUT_FORWARDS_INCOMPATIBLE,
          "property-access-changed-" ++ p.access ++ "-" ++ q.access,
          "Property ‘" ++ (oIN ++ "." ++ p.name) ++
          "’ has changed access from ‘" ++ p.access ++ "’ to ‘" ++
          q.access ++ "’, becoming less restrictive."⟩ : OutEntry)]
      else if p.access ≠ q.access then
        [⟨fname, OUTPUT_BACKWARDS_INCOMPATIBLE,
          "property-access-changed-" ++ p.access ++ "-" ++ q.access,
          "Property ‘" ++ (oIN ++ "." ++ p.name) ++
          "’ has changed access from ‘" ++ p.access ++ "’ to ‘" ++
          q.access ++ "’."⟩]
      else []).filter (fun e => e.code = "property-type-changed") = [] := by
    split_ifs <;> simp [hne]
  have hann : (compareAnnots fname (oIN ++ "." ++ p.name) p.annots q.annots
      (some oIA) (some nIA)).filter
      (fun e => e.code = "property-type-changed") = [] := by
    rw [List.filter_eq_nil_iff]
    intro e he
    have := annotCmpCode_ne e.code "property-type-changed"
      (compareAnnots_code _ _ _ _ _ _ _ he) (by decide) (by decide)
    simpa using this
  rw [hacc, hann]
  cases hb : beqSigOpt p.typ q.typ <;> simp [hb]

theorem compareProps_accessDiags (fname : Option String)
    (oIN nIN : String) (oIA nIA : AnnotMap) (p q : PropertyNode) :
    propAccessDiags (compareProps fname oIN nIN oIA nIA p q) =
      if (p.access = "read" ∨ p.access = "write") ∧
         q.access = "readwrite" then
        [⟨fname, OUTPUT_FORWARDS_INCOMPATIBLE,
          "property-access-changed-" ++ p.access ++ "-" ++ q.access,
          "Property ‘" ++ (oIN ++ "." ++ p.name) ++
          "’ has changed access from ‘" ++ p.access ++ "’ to ‘" ++
          q.access ++ "’, becoming less restrictive."⟩]
      else if p.access ≠ q.access then
        [⟨fname, OUTPUT_BACKWARDS_INCOMPATIBLE,
          "property-access-changed-" ++ p.access ++ "-" ++ q.access,
          "Property ‘" ++ (oIN ++ "." ++ p.name) ++
          "’ has changed access from ‘" ++ p.access ++ "’ to ‘" ++
          q.access ++ "’."⟩]
      else [] := by
  unfold propAccessDiags compareProps
  rw [List.filter_append, List.filter_append]
  have hpre : strIsPrefix "property-access-changed-"
      ("property-access-changed-" ++ p.access ++ "-" ++ q.access) = true := by
    rw [String.append_assoc, String.append_assoc]
    exact strIsPrefix_append _ _
  have htype : (if !(beqSigOpt p.typ q.typ) then
      [(⟨fname, OUTPUT_BACKWARDS_INCOMPATIBLE, "property-type-changed",
        "Property ‘" ++ (oIN ++ "." ++ p.name) ++
        "’ has changed type from ‘" ++ showTypeOpt p.typ ++ "’ to ‘" ++
        showTypeOpt q.typ ++ "’."⟩ : OutEntry)]
    else []).filter
      (fun e => strIsPrefix "property-access-changed-" e.code) = [] := by
    split_ifs <;> simp <;> decide
  have hann : (compareAnnots fname (oIN ++ "." ++ p.name) p.annots q.annots
      (some oIA) (some nIA)).filter
      (fun e => strIsPrefix "property-access-changed-" e.code) = [] := by
    rw [List.filter_eq_nil_iff]
    intro e he
    have := annotCmpCode_not_prefix e.code "property-access-changed-"
      (compareAnnots_code _ _ _ _ _ _ _ he) (by decide) (by decide) (by decide)
    simp [this]
  rw [htype, hann]
  split_ifs <;> simp [hpre]

/-- C5: for a matched property pair, a type change yields exactly one
backwards-incompatible `property-type-changed` diagnostic and no type
diagnostic otherwise; an access change from read or write to readwrite
yields exactly one forwards-incompatible `property-access-changed-*`
diagnostic, every other unequal access transition exactly one
backwards-incompatible one, and equal access none. -/
theorem property_comparison_rules (fname : Option String)
    (oIN nIN : String) (oIA nIA : AnnotMap) (p q : PropertyNode) :
    (beqSigOpt p.typ q.typ = false →
      (propTypeDiags (compareProps fname oIN nIN oIA nIA p q)).map
        OutEntry.level = [OUTPUT_BACKWARDS_INCOMPATIBLE]) ∧
    (beqSigOpt p.typ q.typ = true →
      propTypeDiags (compareProps fname oIN nIN oIA nIA p q) = []) ∧
    ((p.access = "read" ∨ p.access = "write") → q.access = "readwrite" →
      (propAccessDiags (compareProps fname oIN nIN oIA nIA p q)).map
        OutEntry.level = [OUTPUT_FORWARDS_INCOMPATIBLE]) ∧
    (p.access ≠ q.access →
      ¬((p.access = "read" ∨ p.access = "write") ∧
        q.access = "readwrite") →
      (propAccessDiags (compareProps fname oIN nIN oIA nIA p q)).map
        OutEntry.level = [OUTPUT_BACKWARDS_INCOMPATIBLE]) ∧
    (p.access = q.access →
      propAccessDiags (compareProps fname oIN nIN oIA nIA p q) = []) := by
  refine ⟨?_, ?_, ?_, ?_, ?_⟩
  · intro hb
    rw [compareProps_typeDiags, hb]
    rfl
  · intro hb
    rw [compareProps_typeDiags, hb]
    rfl
  · intro h1 h2
    rw [compareProps_accessDiags, if_pos ⟨h1, h2⟩]
    rfl
  · intro hne hnot
    rw [compareProps_accessDiags, if_neg hnot, if_pos hne]
    rfl
  · intro heq
    rw [compareProps_accessDiags]
    rw [if_neg, if_neg]
    · simp [heq]
    · intro hcond
      obtain ⟨ha, hb⟩ := hcond
      rw [heq] at ha
      rcases ha with ha | ha <;> rw [ha] at hb <;> simp at hb

/-- Witness for C5: a property changing access from read to readwrite
(Scenario C) and keeping its type. -/
theorem property_comparison_rules_witness :
    (propAccessDiags (compareProps none "I" "I" [] []
      { name := "P", typ := some [DType.string], access := "read",
        annots := [] }
      { name := "P", typ := some [DType.string], access := "readwrite",
        annots := [] })).map OutEntry.level =
      [OUTPUT_FORWARDS_INCOMPATIBLE] ∧
    propTypeDiags (compareProps none "I" "I" [] []
      { name := "P", typ := some [DType.string], access := "read",
        annots := [] }
      { name := "P", typ := some [DType.string], access := "readwrite",
        annots := [] }) = [] :=
  ⟨(property_comparison_rules none "I" "I" [] [] _ _).2.2.1
      (Or.inl rfl) rfl,
   (property_comparison_rules none "I" "I" [] [] _ _).2.1 rfl⟩

/-- The EmitsChangedSignal diagnostics among a comparison output. -/
def ecsDiags (out : List OutEntry) : List OutEntry :=
  out.filter (fun e => isEcsCode e.code)

theorem compareAnnots_ecsDiags (f : Option String) (p : String)
    (oa na : AnnotMap) (oia nia : Option AnnotMap) :
    ecsDiags (compareAnnots f p oa na oia nia) =
      ecsBlock f p (getEcsValue oa oia) (getEcsValue na nia) := by
  unfold ecsDiags compareAnnots
  rw [List.filter_append, List.filter_append, List.filter_append]
  have hdep : (depBlock f p
      (getBoolAnnot oa "org.freedesktop.DBus.Deprecated" false)
      (getBoolAnnot na "org.freedesktop.DBus.Deprecated" false)).filter
      (fun e => isEcsCode e.code) = [] := by
    rw [List.filter_eq_nil_iff]
    intro e he
    rcases depBlock_code _ _ _ _ _ he with h | h <;> simp [h] <;> decide
  have hsym : (symBlock f p
      (getStrAnnot oa "org.freedesktop.DBus.GLib.CSymbol" "")
      (getStrAnnot na "org.freedesktop.DBus.GLib.CSymbol" "")).filter
      (fun e => isEcsCode e.code) = [] := by
    rw [List.filter_eq_nil_iff]
    intro e he
    simp [symBlock_code _ _ _ _ _ he]
    decide
  have hreply : (replyBlock f p
      (getBoolAnnot oa "org.freedesktop.DBus.Method.NoReply" false)
      (getBoolAnnot na "org.freedesktop.DBus.Method.NoReply" false)).filter
      (fun e => isEcsCode e.code) = [] := by
    rw [List.filter_eq_nil_iff]
    intro e he
    rcases replyBlock_code _ _ _ _ _ he with h | h <;> simp [h] <;> decide
  have hecs : (ecsBlock f p (getEcsValue oa oia)
      (getEcsValue na nia)).filter (fun e => isEcsCode e.code) =
      ecsBlock f p (getEcsValue oa oia) (getEcsValue na nia) :=
    List.filter_eq_self.mpr (fun e he => by
      simp [ecsBlock_code _ _ _ _ _ he])
  rw [hdep, hsym, hreply, hecs]
  rfl

/-- C4: for a matched node pair, with each side's EmitsChangedSignal
value resolved by `getEcsValue` (own annotation, else — for a property —
the owning interface's, else `"true"`), the EmitsChangedSignal
diagnostics of `_compare_annotations` follow the fixed 4×4 table:
{true,invalidates}→{false,const} is exactly one forwards-incompatible
diagnostic, {false,const}→{true,invalidates} exactly one
backwards-incompatible one, true↔invalidates and const→false
backwards-incompatible, false→const forwards-incompatible, and equal
resolved values produce none. -/
theorem ecs_annotation_table (fname : Option String) (pretty : String)
    (oldAnnots newAnnots : AnnotMap)
    (oldIfaceAnnots newIfaceAnnots : Option AnnotMap) (oe nv : String)
    (hoe : getEcsValue oldAnnots oldIfaceAnnots = oe)
    (hnv : getEcsValue newAnnots newIfaceAnnots = nv)
    (hdo : oe ∈ (["true", "invalidates", "const", "false"] : List String))
    (hdn : nv ∈ (["true", "invalidates", "const", "false"] : List String)) :
    ((oe = "true" ∨ oe = "invalidates") ∧ (nv = "false" ∨ nv = "const") →
      (ecsDiags (compareAnnots fname pretty oldAnnots newAnnots
        oldIfaceAnnots newIfaceAnnots)).map OutEntry.level =
        [OUTPUT_FORWARDS_INCOMPATIBLE]) ∧
    ((oe = "false" ∨ oe = "const") ∧ (nv = "true" ∨ nv = "invalidates") →
      (ecsDiags (compareAnnots fname pretty oldAnnots newAnnots
        oldIfaceAnnots newIfaceAnnots)).map OutEntry.level =
        [OUTPUT_BACKWARDS_INCOMPATIBLE]) ∧
    (oe = "true" ∧ nv = "invalidates" →
      (ecsDiags (compareAnnots fname pretty oldAnnots newAnnots
        oldIfaceAnnots newIfaceAnnots)).map OutEntry.level =
        [OUTPUT_BACKWARDS_INCOMPATIBLE]) ∧
    (oe = "invalidates" ∧ nv = "true" →
      (ecsDiags (compareAnnots fname pretty oldAnnots newAnnots
        oldIfaceAnnots newIfaceAnnots)).map OutEntry.level =
        [OUTPUT_BACKWARDS_INCOMPATIBLE]) ∧
    (oe = "const" ∧ nv = "false" →
      (ecsDiags (compareAnnots fname pretty oldAnnots newAnnots
        oldIfaceAnnots newIfaceAnnots)).map OutEntry.level =
        [OUTPUT_BACKWARDS_INCOMPATIBLE]) ∧
    (oe = "false" ∧ nv = "const" →
      (ecsDiags (compareAnnots fname pretty oldAnnots newAnnots
        oldIfaceAnnots newIfaceAnnots)).map OutEntry.level =
        [OUTPUT_FORWARDS_INCOMPATIBLE]) ∧
    (oe = nv →
      ecsDiags (compareAnnots fname pretty oldAnnots newAnnots
        oldIfaceAnnots newIfaceAnnots) = []) := by
  rw [compareAnnots_ecsDiags, hoe, hnv]
  simp only [List.mem_cons, List.not_mem_nil, or_false] at hdo hdn
  rcases hdo with rfl | rfl | rfl | rfl <;>
    rcases hdn with rfl | rfl | rfl | rfl <;>
    refine ⟨?_, ?_, ?_, ?_, ?_, ?_, ?_⟩ <;> intro h <;>
    first
    | exact absurd h (by decide)
    | (simp [ecsBlock])

/-- Witness for C4 at the spec's Scenario D: a property whose own
annotation says `const` in the old tree, resolved through the owning
interface's annotation to `invalidates` in the new tree. -/
theorem ecs_annotation_table_witness :
    (ecsDiags (compareAnnots none "I.P" [(ecsName, "const")] []
      (some []) (some [(ecsName, "invalidates")]))).map OutEntry.level =
      [OUTPUT_BACKWARDS_INCOMPATIBLE] :=
  (ecs_annotation_table none "I.P" [(ecsName, "const")] []
    (some []) (some [(ecsName, "invalidates")]) "const" "invalidates"
    rfl rfl (by decide) (by decide)).2.1 ⟨Or.inr rfl, Or.inr rfl⟩

/-! ## Comparator lemmas: severity symmetry (C3) -/

theorem callableCmpEntry_ne (e : OutEntry) (h : callableCmpEntry e)
    (target : String)
    (h1 : target ≠ "argument-added") (h2 : target ≠ "argument-removed")
    (h3 : target ≠ "argument-name-changed")
    (h4 : target ≠ "argument-type-changed")
    (h5 : strIsPrefix "argument-direction-changed-" target = false)
    (h6 : target ∉ (["undeprecated", "deprecated", "c-symbol-changed",
      "reply-added", "reply-removed"] : List String))
    (h7 : isEcsCode target = false) : e.code ≠ target := by
  intro heq
  rcases h with ⟨hc, _⟩ | hc
  · rcases hc with hc | hc <;> rw [heq] at hc
    · exact h1 hc
    · exact h2 hc
  · rcases hc with hst | hpre | hann
    · rw [heq] at hst
      simp at hst
      rcases hst with rfl | rfl
      · exact h3 rfl
      · exact h4 rfl
    · rw [heq] at hpre
      simp [h5] at hpre
    · rcases hann with hst2 | hecs
      · rw [heq] at hst2
        exact h6 hst2
      · rw [heq] at hecs
        simp [h7] at hecs

theorem propCmpCode_ne (c : String) (h : propCmpCode c) (target : String)
    (h1 : target ≠ "property-type-changed")
    (h2 : strIsPrefix "property-access-changed-" target = false)
    (h6 : target ∉ (["undeprecated", "deprecated", "c-symbol-changed",
      "reply-added", "reply-removed"] : List String))
    (h7 : isEcsCode target = false) : c ≠ target := by
  intro heq
  subst heq
  rcases h with hc | hpre | hann
  · exact h1 hc
  · simp [h2] at hpre
  · rcases hann with hst2 | hecs
    · exact h6 hst2
    · simp [h7] at hecs

theorem ifaceCmpEntry_ne (e : OutEntry) (h : ifaceCmpEntry e)
    (target : String)
    (hm : target ∉ (["method-removed", "property-removed",
      "signal-removed"] : List String))
    (ha : target ∉ (["method-added", "property-added", "signal-added"] :
      List String))
    (h1 : target ≠ "argument-added") (h2 : target ≠ "argument-removed")
    (h3 : target ≠ "argument-name-changed")
    (h4 : target ≠ "argument-type-changed")
    (h5 : strIsPrefix "argument-direction-changed-" target = false)
    (hp1 : target ≠ "property-type-changed")
    (hp2 : strIsPrefix "property-access-changed-" target = false)
    (h6 : target ∉ (["undeprecated", "deprecated", "c-symbol-changed",
      "reply-added", "reply-removed"] : List String))
    (h7 : isEcsCode target = false) : e.code ≠ target := by
  rcases h with ⟨hc, _⟩ | ⟨hc, _⟩ | hc | hc
  · intro heq
    rw [heq] at hc
    exact hm hc
  · intro heq
    rw [heq] at hc
    exact ha hc
  · exact callableCmpEntry_ne e hc target h1 h2 h3 h4 h5 h6 h7
  · exact propCmpCode_ne e.code hc target hp1 hp2 h6 h7

theorem filter_code_nil (lst : List OutEntry) (target : String)
    (h : ∀ e ∈ lst, e.code ≠ target) :
    lst.filter (fun e => e.code = target) = [] :=
  List.filter_eq_nil_iff.mpr (fun e he => by simpa using h e he)

theorem collect_filter_code_nil {γ : Type} (l : List γ)
    (f : γ → List OutEntry) (target : String)
    (h : ∀ p ∈ l, ∀ e ∈ f p, e.code ≠ target) :
    (collect l f).filter (fun e => e.code = target) = [] := by
  rw [filter_collect]
  exact collect_eq_nil _ _ (fun p hp => filter_code_nil _ _ (h p hp))


theorem collect_split_filter {γ : Type} (l : List γ) (f : γ → List OutEntry)
    (q : γ → Bool) (r : γ → OutEntry) (target : String)
    (hpos : ∀ p, q p = true → f p = [r p])
    (hneg : ∀ p, q p = false → ∀ e ∈ f p, e.code ≠ target)
    (hr : ∀ p, (r p).code = target) :
    (collect l f).filter (fun e => e.code = target) = (l.filter q).map r := by
  induction l with
  | nil => rfl
  | cons x xs ih =>
    rw [collect_cons, List.filter_append, ih]
    cases hq : q x with
    | true =>
      rw [hpos x hq]
      simp [hr x, hq]
    | false =>
      rw [filter_code_nil _ _ (hneg x hq)]
      simp [hq]

theorem methodsRemovedLoop_filter_own (f : Option String)
    (oi ni : InterfaceNode) :
    (methodsRemovedLoop f oi ni).filter
      (fun e => e.code = "method-removed") =
    (oi.methods.filter (fun p => (alookup p.1 ni.methods).isNone)).map
      (fun p =>
        memberRemovedEntry f "Method" "method-removed" oi.name p.2.name) := by
  unfold methodsRemovedLoop
  exact collect_split_filter _ _ _ _ _
    (fun p hq => by
      cases hl : alookup p.1 ni.methods with
      | none => simp [hl]
      | some d => simp [hl] at hq)
    (fun p hq e he => by
      cases hl : alookup p.1 ni.methods with
      | none => simp [hl] at hq
      | some d =>
        simp only [hl] at he
        exact callableCmpEntry_ne e
          (compareCallable_entry _ _ _ _ _ _ _ he) _ (by decide) (by decide)
          (by decide) (by decide) (by decide) (by decide) (by decide))
    (fun p => rfl)

theorem methodsAddedLoop_filter_own (f : Option String)
    (oi ni : InterfaceNode) :
    (methodsAddedLoop f oi ni).filter (fun e => e.code = "method-added") =
    (ni.methods.filter (fun p => (alookup p.1 oi.methods).isNone)).map
      (fun p =>
        memberAddedEntry f "Method" "method-added" ni.name p.2.name) := by
  unfold methodsAddedLoop
  exact collect_split_filter _ _ _ _ _
    (fun p hq => by
      cases hl : alookup p.1 oi.methods with
      | none => simp [hl]
      | some d => simp [hl] at hq)
    (fun p hq e he => by
      cases hl : alookup p.1 oi.methods with
      | none => simp [hl] at hq
      | some d => simp [hl] at he)
    (fun p => rfl)

theorem propertiesRemovedLoop_filter_own (f : Option String)
    (oi ni : InterfaceNode) :
    (propertiesRemovedLoop f oi ni).filter
      (fun e => e.code = "property-removed") =
    (oi.properties.filter (fun p => (alookup p.1 ni.properties).isNone)).map
      (fun p =>
        memberRemovedEntry f "Property" "property-removed" oi.name
          p.2.name) := by
  unfold propertiesRemovedLoop
  exact collect_split_filter _ _ _ _ _
    (fun p hq => by
      cases hl : alookup p.1 ni.properties with
      | none => simp [hl]
      | some d => simp [hl] at hq)
    (fun p hq e he => by
      cases hl : alookup p.1 ni.properties with
      | none => simp [hl] at hq
      | some d =>
        simp only [hl] at he
        exact propCmpCode_ne e.code
          (compareProps_code _ _ _ _ _ _ _ _ he) _ (by decide) (by decide)
          (by decide) (by decide))
    (fun p => rfl)

theorem propertiesAddedLoop_filter_own (f : Option String)
    (oi ni : InterfaceNode) :
    (propertiesAddedLoop f oi ni).filter
      (fun e => e.code = "property-added") =
    (ni.properties.filter (fun p => (alookup p.1 oi.properties).isNone)).map
      (fun p =>
        memberAddedEntry f "Property" "property-added" ni.name p.2.name) := by
  unfold propertiesAddedLoop
  exact collect_split_filter _ _ _ _ _
    (fun p hq => by
      cases hl : alookup p.1 oi.properties with
      | none => simp [hl]
      | some d => simp [hl] at hq)
    (fun p hq e he => by
      cases hl : alookup p.1 oi.properties with
      | none => simp [hl] at hq
      | some d => simp [hl] at he)
    (fun p => rfl)

theorem signalsRemovedLoop_filter_own (f : Option String)
    (oi ni : InterfaceNode) :
    (signalsRemovedLoop f oi ni).filter
      (fun e => e.code = "signal-removed") =
    (oi.signals.filter (fun p => (alookup p.1 ni.signals).isNone)).map
      (fun p =>
        memberRemovedEntry f "Signal" "signal-removed" oi.name p.2.name) := by
  unfold signalsRemovedLoop
  exact collect_split_filter _ _ _ _ _
    (fun p hq => by
      cases hl : alookup p.1 ni.signals with
      | none => simp [hl]
      | some d => simp [hl] at hq)
    (fun p hq e he => by
      cases hl : alookup p.1 ni.signals with
      | none => simp [hl] at hq
      | some d =>
        simp only [hl] at he
        exact callableCmpEntry_ne e
          (compareCallable_entry _ _ _ _ _ _ _ he) _ (by decide) (by decide)
          (by decide) (by decide) (by decide) (by decide) (by decide))
    (fun p => rfl)

theorem signalsAddedLoop_filter_own (f : Option String)
    (oi ni : InterfaceNode) :
    (signalsAddedLoop f oi ni).filter (fun e => e.code = "signal-added") =
    (ni.signals.filter (fun p => (alookup p.1 oi.signals).isNone)).map
      (fun p =>
        memberAddedEntry f "Signal" "signal-added" ni.name p.2.name) := by
  unfold signalsAddedLoop
  exact collect_split_filter _ _ _ _ _
    (fun p hq => by
      cases hl : alookup p.1 oi.signals with
      | none => simp [hl]
      | some d => simp [hl] at hq)
    (fun p hq e he => by
      cases hl : alookup p.1 oi.signals with
      | none => simp [hl] at hq
      | some d => simp [hl] at he)
    (fun p => rfl)

theorem methodsRemovedLoop_filter_nil (f : Option String)
    (oi ni : InterfaceNode) (target : String)
    (h1 : target ≠ "method-removed")
    (c1 : target ≠ "argument-added") (c2 : target ≠ "argument-removed")
    (c3 : target ≠ "argument-name-changed")
    (c4 : target ≠ "argument-type-changed")
    (c5 : strIsPrefix "argument-direction-changed-" target = false)
    (c6 : target ∉ (["undeprecated", "deprecated", "c-symbol-changed",
      "reply-added", "reply-removed"] : List String))
    (c7 : isEcsCode target = false) :
    (methodsRemovedLoop f oi ni).filter (fun e => e.code = target) = [] := by
  unfold methodsRemovedLoop
  apply collect_filter_code_nil
  intro p hp e he
  cases hl : alookup p.1 ni.methods with
  | none =>
    simp [hl] at he
    subst he
    simp [memberRemovedEntry]
    exact fun hx => h1 hx.symm
  | some d =>
    simp only [hl] at he
    exact callableCmpEntry_ne e (compareCallable_entry _ _ _ _ _ _ _ he)
      target c1 c2 c3 c4 c5 c6 c7

theorem methodsAddedLoop_filter_nil (f : Option String)
    (oi ni : InterfaceNode) (target : String)
    (h1 : target ≠ "method-added") :
    (methodsAddedLoop f oi ni).filter (fun e => e.code = target) = [] := by
  unfold methodsAddedLoop
  apply collect_filter_code_nil
  intro p hp e he
  cases hl : alookup p.1 oi.methods with
  | none =>
    simp [hl] at he
    subst he
    simp [memberAddedEntry]
    exact fun hx => h1 hx.symm
  | some d => simp [hl] at he

theorem propertiesRemovedLoop_filter_nil (f : Option String)
    (oi ni : InterfaceNode) (target : String)
    (h1 : target ≠ "property-removed")
    (c1 : target ≠ "property-type-changed")
    (c2 : strIsPrefix "property-access-changed-" target = false)
    (c6 : target ∉ (["undeprecated", "deprecated", "c-symbol-changed",
      "reply-added", "reply-removed"] : List String))
    (c7 : isEcsCode target = false) :
    (propertiesRemovedLoop f oi ni).filter (fun e => e.code = target) = [] := by
  unfold propertiesRemovedLoop
  apply collect_filter_code_nil
  intro p hp e he
  cases hl : alookup p.1 ni.properties with
  | none =>
    simp [hl] at he
    subst he
    simp [memberRemovedEntry]
    exact fun hx => h1 hx.symm
  | some d =>
    simp only [hl] at he
    exact propCmpCode_ne e.code (compareProps_code _ _ _ _ _ _ _ _ he)
      target c1 c2 c6 c7

theorem propertiesAddedLoop_filter_nil (f : Option String)
    (oi ni : InterfaceNode) (target : String)
    (h1 : target ≠ "property-added") :
    (propertiesAddedLoop f oi ni).filter (fun e => e.code = target) = [] := by
  unfold propertiesAddedLoop
  apply collect_filter_code_nil
  intro p hp e he
  cases hl : alookup p.1 oi.properties with
  | none =>
    simp [hl] at he
    subst he
    simp [memberAddedEntry]
    exact fun hx => h1 hx.symm
  | some d => simp [hl] at he

theorem signalsRemovedLoop_filter_nil (f : Option String)
    (oi ni : InterfaceNode) (target : String)
    (h1 : target ≠ "signal-removed")
    (c1 : target ≠ "argument-added") (c2 : target ≠ "argument-removed")
    (c3 : target ≠ "argument-name-changed")
    (c4 : target ≠ "argument-type-changed")
    (c5 : strIsPrefix "argument-direction-changed-" target = false)
    (c6 : target ∉ (["undeprecated", "deprecated", "c-symbol-changed",
      "reply-added", "reply-removed"] : List String))
    (c7 : isEcsCode target = false) :
    (signalsRemovedLoop f oi ni).filter (fun e => e.code = target) = [] := by
  unfold signalsRemovedLoop
  apply collect_filter_code_nil
  intro p hp e he
  cases hl : alookup p.1 ni.signals with
  | none =>
    simp [hl] at he
    subst he
    simp [memberRemovedEntry]
    exact fun hx => h1 hx.symm
  | some d =>
    simp only [hl] at he
    exact callableCmpEntry_ne e (compareCallable_entry _ _ _ _ _ _ _ he)
      target c1 c2 c3 c4 c5 c6 c7

theorem signalsAddedLoop_filter_nil (f : Option String)
    (oi ni : InterfaceNode) (target : String)
    (h1 : target ≠ "signal-added") :
    (signalsAddedLoop f oi ni).filter (fun e => e.code = target) = [] := by
  unfold signalsAddedLoop
  apply collect_filter_code_nil
  intro p hp e he
  cases hl : alookup p.1 oi.signals with
  | none =>
    simp [hl] at he
    subst he
    simp [memberAddedEntry]
    exact fun hx => h1 hx.symm
  | some d => simp [hl] at he

theorem treesRemovedLoop_filter_own (f : Option String)
    (old new : InterfaceMap) :
    (treesRemovedLoop f old new).filter
      (fun e => e.code = "interface-removed") =
    (old.filter (fun p => (alookup p.1 new).isNone)).map
      (fun p => ifaceRemovedEntry f p.1) := by
  unfold treesRemovedLoop
  exact collect_split_filter _ _ _ _ _
    (fun p hq => by
      cases hl : alookup p.1 new with
      | none => simp [hl]
      | some d => simp [hl] at hq)
    (fun p hq e he => by
      cases hl : alookup p.1 new with
      | none => simp [hl] at hq
      | some d =>
        simp only [hl] at he
        exact ifaceCmpEntry_ne e (compareIfaces_entry _ _ _ _ he) _
          (by decide) (by decide) (by decide) (by decide) (by decide)
          (by decide) (by decide) (by decide) (by decide) (by decide)
          (by decide))
    (fun p => rfl)

theorem treesAddedLoop_filter_own (f : Option String)
    (old new : InterfaceMap) :
    (treesAddedLoop f old new).filter
      (fun e => e.code = "interface-added") =
    (new.filter (fun p => (alookup p.1 old).isNone)).map
      (fun p => ifaceAddedEntry f p.1) := by
  unfold treesAddedLoop
  exact collect_split_filter _ _ _ _ _
    (fun p hq => by
      cases hl : alookup p.1 old with
      | none => simp [hl]
      | some d => simp [hl] at hq)
    (fun p hq e he => by
      cases hl : alookup p.1 old with
      | none => simp [hl] at hq
      | some d => simp [hl] at he)
    (fun p => rfl)

theorem treesRemovedLoop_filter_nil (f : Option String)
    (old new : InterfaceMap) (target : String)
    (h1 : target ≠ "interface-removed")
    (hm : target ∉ (["method-removed", "property-removed",
      "signal-removed"] : List String))
    (ha : target ∉ (["method-added", "property-added", "signal-added"] :
      List String))
    (c1 : target ≠ "argument-added") (c2 : target ≠ "argument-removed")
    (c3 : target ≠ "argument-name-changed")
    (c4 : target ≠ "argument-type-changed")
    (c5 : strIsPrefix "argument-direction-changed-" target = false)
    (p1 : target ≠ "property-type-changed")
    (p2 : strIsPrefix "property-access-changed-" target = false)
    (c6 : target ∉ (["undeprecated", "deprecated", "c-symbol-changed",
      "reply-added", "reply-removed"] : List String))
    (c7 : isEcsCode target = false) :
    (treesRemovedLoop f old new).filter (fun e => e.code = target) = [] := by
  unfold treesRemovedLoop
  apply collect_filter_code_nil
  intro p hp e he
  cases hl : alookup p.1 new with
  | none =>
    simp [hl] at he
    subst he
    simp [ifaceRemovedEntry]
    exact fun hx => h1 hx.symm
  | some d =>
    simp only [hl] at he
    exact ifaceCmpEntry_ne e (compareIfaces_entry _ _ _ _ he) target
      hm ha c1 c2 c3 c4 c5 p1 p2 c6 c7

theorem treesAddedLoop_filter_nil (f : Option String)
    (old new : InterfaceMap) (target : String)
    (h1 : target ≠ "interface-added") :
    (treesAddedLoop f old new).filter (fun e => e.code = target) = [] := by
  unfold treesAddedLoop
  apply collect_filter_code_nil
  intro p hp e he
  cases hl : alookup p.1 old with
  | none =>
    simp [hl] at he
    subst he
    simp [ifaceAddedEntry]
    exact fun hx => h1 hx.symm
  | some d => simp [hl] at he

theorem compareAnnots_filter_nil (f : Option String) (pnm : String)
    (oa na : AnnotMap) (oia nia : Option AnnotMap) (target : String)
    (c6 : target ∉ (["undeprecated", "deprecated", "c-symbol-changed",
      "reply-added", "reply-removed"] : List String))
    (c7 : isEcsCode target = false) :
    (compareAnnots f pnm oa na oia nia).filter
      (fun e => e.code = target) = [] :=
  filter_code_nil _ _ (fun e he => annotCmpCode_ne e.code target
    (compareAnnots_code _ _ _ _ _ _ _ he) c6 c7)

theorem compareTrees_filter_removed (f : Option String)
    (old new : InterfaceMap) :
    (compareTrees f old new).filter (fun e => e.code = "interface-removed") =
      (old.filter (fun p => (alookup p.1 new).isNone)).map
        (fun p => ifaceRemovedEntry f p.1) := by
  unfold compareTrees
  rw [List.filter_append, treesRemovedLoop_filter_own,
    treesAddedLoop_filter_nil f old new "interface-removed" (by decide)]
  simp

theorem compareTrees_filter_added (f : Option String)
    (old new : InterfaceMap) :
    (compareTrees f old new).filter (fun e => e.code = "interface-added") =
      (new.filter (fun p => (alookup p.1 old).isNone)).map
        (fun p => ifaceAddedEntry f p.1) := by
  unfold compareTrees
  rw [List.filter_append,
    treesRemovedLoop_filter_nil f old new "interface-added" (by decide)
      (by decide) (by decide) (by decide) (by decide) (by decide) (by decide)
      (by decide) (by decide) (by decide) (by decide) (by decide),
    treesAddedLoop_filter_own]
  simp

theorem compareIfaces_filter_method_removed (f : Option String)
    (oi ni : InterfaceNode) :
    (compareIfaces f oi ni).filter (fun e => e.code = "method-removed") =
      (oi.methods.filter (fun p => (alookup p.1 ni.methods).isNone)).map
        (fun p =>
          memberRemovedEntry f "Method" "method-removed" oi.name
            p.2.name) := by
  unfold compareIfaces
  rw [List.filter_append, List.filter_append, List.filter_append,
    List.filter_append, List.filter_append, List.filter_append,
    methodsRemovedLoop_filter_own,
    methodsAddedLoop_filter_nil f oi ni "method-removed" (by decide),
    propertiesRemovedLoop_filter_nil f oi ni "method-removed" (by decide)
      (by decide) (by decide) (by decide) (by decide),
    propertiesAddedLoop_filter_nil f oi ni "method-removed" (by decide),
    signalsRemovedLoop_filter_nil f oi ni "method-removed" (by decide)
      (by decide) (by decide) (by decide) (by decide) (by decide) (by decide)
      (by decide),
    signalsAddedLoop_filter_nil f oi ni "method-removed" (by decide),
    compareAnnots_filter_nil f oi.name oi.annots ni.annots none none
      "method-removed" (by decide) (by decide)]
  simp

theorem compareIfaces_filter_method_added (f : Option String)
    (oi ni : InterfaceNode) :
    (compareIfaces f oi ni).filter (fun e => e.code = "method-added") =
      (ni.methods.filter (fun p => (alookup p.1 oi.methods).isNone)).map
        (fun p =>
          memberAddedEntry f "Method" "method-added" ni.name p.2.name) := by
  unfold compareIfaces
  rw [List.filter_append, List.filter_append, List.filter_append,
    List.filter_append, List.filter_append, List.filter_append,
    methodsRemovedLoop_filter_nil f oi ni "method-added" (by decide)
      (by decide) (by decide) (by decide) (by decide) (by decide) (by decide)
      (by decide),
    methodsAddedLoop_filter_own,
    propertiesRemovedLoop_filter_nil f oi ni "method-added" (by decide)
      (by decide) (by decide) (by decide) (by decide),
    propertiesAddedLoop_filter_nil f oi ni "method-added" (by decide),
    signalsRemovedLoop_filter_nil f oi ni "method-added" (by decide)
      (by decide) (by decide) (by decide) (by decide) (by decide) (by decide)
      (by decide),
    signalsAddedLoop_filter_nil f oi ni "method-added" (by decide),
    compareAnnots_filter_nil f oi.name oi.annots ni.annots none none
      "method-added" (by decide) (by decide)]
  simp

theorem compareIfaces_filter_property_removed (f : Option String)
    (oi ni : InterfaceNode) :
    (compareIfaces f oi ni).filter (fun e => e.code = "property-removed") =
      (oi.properties.filter
        (fun p => (alookup p.1 ni.properties).isNone)).map
        (fun p =>
          memberRemovedEntry f "Property" "property-removed" oi.name
            p.2.name) := by
  unfold compareIfaces
  rw [List.filter_append, List.filter_append, List.filter_append,
    List.filter_append, List.filter_append, List.filter_append,
    methodsRemovedLoop_filter_nil f oi ni "property-removed" (by decide)
      (by decide) (by decide) (by decide) (by decide) (by decide) (by decide)
      (by decide),
    methodsAddedLoop_filter_nil f oi ni "property-removed" (by decide),
    propertiesRemovedLoop_filter_own,
    propertiesAddedLoop_filter_nil f oi ni "property-removed" (by decide),
    signalsRemovedLoop_filter_nil f oi ni "property-removed" (by decide)
      (by decide) (by decide) (by decide) (by decide) (by decide) (by decide)
      (by decide),
    signalsAddedLoop_filter_nil f oi ni "property-removed" (by decide),
    compareAnnots_filter_nil f oi.name oi.annots ni.annots none none
      "property-removed" (by decide) (by decide)]
  simp

theorem compareIfaces_filter_property_added (f : Option String)
    (oi ni : InterfaceNode) :
    (compareIfaces f oi ni).filter (fun e => e.code = "property-added") =
      (ni.properties.filter
        (fun p => (alookup p.1 oi.properties).isNone)).map
        (fun p =>
          memberAddedEntry f "Property" "property-added" ni.name
            p.2.name) := by
  unfold compareIfaces
  rw [List.filter_append, List.filter_append, List.filter_append,
    List.filter_append, List.filter_append, List.filter_append,
    methodsRemovedLoop_filter_nil f oi ni "property-added" (by decide)
      (by decide) (by decide) (by decide) (by decide) (by decide) (by decide)
      (by decide),
    methodsAddedLoop_filter_nil f oi ni "property-added" (by decide),
    propertiesRemovedLoop_filter_nil f oi ni "property-added" (by decide)
      (by decide) (by decide) (by decide) (by decide),
    propertiesAddedLoop_filter_own,
    signalsRemovedLoop_filter_nil f oi ni "property-added" (by decide)
      (by decide) (by decide) (by decide) (by decide) (by decide) (by decide)
      (by decide),
    signalsAddedLoop_filter_nil f oi ni "property-added" (by decide),
    compareAnnots_filter_nil f oi.name oi.annots ni.annots none none
      "property-added" (by decide) (by decide)]
  simp

theorem compareIfaces_filter_signal_removed (f : Option String)
    (oi ni : InterfaceNode) :
    (compareIfaces f oi ni).filter (fun e => e.code = "signal-removed") =
      (oi.signals.filter (fun p => (alookup p.1 ni.signals).isNone)).map
        (fun p =>
          memberRemovedEntry f "Signal" "signal-removed" oi.name
            p.2.name) := by
  unfold compareIfaces
  rw [List.filter_append, List.filter_append, List.filter_append,
    List.filter_append, List.filter_append, List.filter_append,
    methodsRemovedLoop_filter_nil f oi ni "signal-removed" (by decide)
      (by decide) (by decide) (by decide) (by decide) (by decide) (by decide)
      (by decide),
    methodsAddedLoop_filter_nil f oi ni "signal-removed" (by decide),
    propertiesRemovedLoop_filter_nil f oi ni "signal-removed" (by decide)
      (by decide) (by decide) (by decide) (by decide),
    propertiesAddedLoop_filter_nil f oi ni "signal-removed" (by decide),
    signalsRemovedLoop_filter_own,
    signalsAddedLoop_filter_nil f oi ni "signal-removed" (by decide),
    compareAnnots_filter_nil f oi.name oi.annots ni.annots none none
      "signal-removed" (by decide) (by decide)]
  simp

theorem compareIfaces_filter_signal_added (f : Option String)
    (oi ni : InterfaceNode) :
    (compareIfaces f oi ni).filter (fun e => e.code = "signal-added") =
      (ni.signals.filter (fun p => (alookup p.1 oi.signals).isNone)).map
        (fun p =>
          memberAddedEntry f "Signal" "signal-added" ni.name p.2.name) := by
  unfold compareIfaces
  rw [List.filter_append, List.filter_append, List.filter_append,
    List.filter_append, List.filter_append, List.filter_append,
    methodsRemovedLoop_filter_nil f oi ni "signal-added" (by decide)
      (by decide) (by decide) (by decide) (by decide) (by decide) (by decide)
      (by decide),
    methodsAddedLoop_filter_nil f oi ni "signal-added" (by decide),
    propertiesRemovedLoop_filter_nil f oi ni "signal-added" (by decide)
      (by decide) (by decide) (by decide) (by decide),
    propertiesAddedLoop_filter_nil f oi ni "signal-added" (by decide),
    signalsRemovedLoop_filter_nil f oi ni "signal-added" (by decide)
      (by decide) (by decide) (by decide) (by decide) (by decide) (by decide)
      (by decide),
    signalsAddedLoop_filter_own,
    compareAnnots_filter_nil f oi.name oi.annots ni.annots none none
      "signal-added" (by decide) (by decide)]
  simp

/-- Every comparator diagnostic carries one of the three severity
levels of `WARNING_CATEGORIES`. -/
def levelOk (e : OutEntry) : Prop :=
  e.level = OUTPUT_INFO ∨ e.level = OUTPUT_FORWARDS_INCOMPATIBLE ∨
  e.level = OUTPUT_BACKWARDS_INCOMPATIBLE

theorem depBlock_level (f : Option String) (p : String) (a b : Bool)
    (e : OutEntry) (he : e ∈ depBlock f p a b) : levelOk e := by
  cases a <;> cases b <;> simp [depBlock] at he <;>
    simp [levelOk, he, OUTPUT_INFO]

theorem symBlock_level (f : Option String) (p os ns : String)
    (e : OutEntry) (he : e ∈ symBlock f p os ns) : levelOk e := by
  unfold symBlock at he
  split at he
  · simp at he
    simp [levelOk, he, OUTPUT_INFO]
  · simp at he

theorem replyBlock_level (f : Option String) (p : String) (a b : Bool)
    (e : OutEntry) (he : e ∈ replyBlock f p a b) : levelOk e := by
  cases a <;> cases b <;> simp [replyBlock] at he <;>
    simp [levelOk, he, OUTPUT_BACKWARDS_INCOMPATIBLE]

theorem ecsBlock_level (f : Option String) (p oe nv : String)
    (e : OutEntry) (he : e ∈ ecsBlock f p oe nv) : levelOk e := by
  unfold ecsBlock at he
  split_ifs at he <;> simp at he <;>
    simp [levelOk, he, OUTPUT_FORWARDS_INCOMPATIBLE,
      OUTPUT_BACKWARDS_INCOMPATIBLE]

theorem compareAnnots_level (f : Option String) (p : String)
    (oa na : AnnotMap) (oia nia : Option AnnotMap) (e : OutEntry)
    (he : e ∈ compareAnnots f p oa na oia nia) : levelOk e := by
  unfold compareAnnots at he
  simp only [List.mem_append] at he
  rcases he with ((h | h) | h) | h
  · exact depBlock_level _ _ _ _ _ h
  · exact symBlock_level _ _ _ _ _ h
  · exact replyBlock_level _ _ _ _ _ h
  · exact ecsBlock_level _ _ _ _ _ h

theorem compareArgs_level (f : Option String) (p : String) (a b : ArgNode)
    (e : OutEntry) (he : e ∈ compareArgs f p a b) : levelOk e := by
  unfold compareArgs at he
  simp only [List.mem_append] at he
  rcases he with ((h | h) | h) | h
  · split at h
    · simp at h
      simp [levelOk, h, OUTPUT_INFO]
    · simp at h
  · split at h
    · simp at h
      simp [levelOk, h, OUTPUT_BACKWARDS_INCOMPATIBLE]
    · simp at h
  · split at h
    · simp at h
      simp [levelOk, h, OUTPUT_BACKWARDS_INCOMPATIBLE]
    · simp at h
  · exact compareAnnots_level _ _ _ _ _ _ _ h

theorem compareCallable_level (f : Option String) (kind onm nnm : String)
    (oc nc : CallableNode) (e : OutEntry)
    (he : e ∈ compareCallable f kind onm nnm oc nc) : levelOk e := by
  unfold compareCallable at he
  simp only [List.mem_append] at he
  rcases he with h | h
  · rcases mem_collect.mp h with ⟨i, _, hi⟩
    split at hi
    · simp at hi
      simp [levelOk, hi, OUTPUT_BACKWARDS_INCOMPATIBLE]
    · split at hi
      · simp at hi
        simp [levelOk, hi, OUTPUT_BACKWARDS_INCOMPATIBLE]
      · exact compareArgs_level _ _ _ _ _ hi
  · exact compareAnnots_level _ _ _ _ _ _ _ h

theorem compareProps_level (f : Option String) (onm nnm : String)
    (oia nia : AnnotMap) (op np : PropertyNode) (e : OutEntry)
    (he : e ∈ compareProps f onm nnm oia nia op np) : levelOk e := by
  unfold compareProps at he
  simp only [List.mem_append] at he
  rcases he with (h | h) | h
  · split at h
    · simp at h
      simp [levelOk, h, OUTPUT_BACKWARDS_INCOMPATIBLE]
    · simp at h
  · split_ifs at h <;> simp at h <;>
      simp [levelOk, h, OUTPUT_FORWARDS_INCOMPATIBLE,
        OUTPUT_BACKWARDS_INCOMPATIBLE]
  · exact compareAnnots_level _ _ _ _ _ _ _ h

theorem compareIfaces_level (f : Option String) (oi ni : InterfaceNode)
    (e : OutEntry) (he : e ∈ compareIfaces f oi ni) : levelOk e := by
  unfold compareIfaces methodsRemovedLoop methodsAddedLoop
    propertiesRemovedLoop propertiesAddedLoop signalsRemovedLoop
    signalsAddedLoop at he
  simp only [List.mem_append] at he
  rcases he with ((((((h | h) | h) | h) | h) | h) | h)
  · rcases mem_collect.mp h with ⟨x, _, hx⟩
    split at hx
    · simp at hx
      simp [levelOk, hx, memberRemovedEntry, OUTPUT_BACKWARDS_INCOMPATIBLE]
    · exact compareCallable_level _ _ _ _ _ _ _ hx
  · rcases mem_collect.mp h with ⟨x, _, hx⟩
    split at hx
    · simp at hx
    · simp at hx
      simp [levelOk, hx, memberAddedEntry, OUTPUT_FORWARDS_INCOMPATIBLE]
  · rcases mem_collect.mp h with ⟨x, _, hx⟩
    split at hx
    · simp at hx
      simp [levelOk, hx, memberRemovedEntry, OUTPUT_BACKWARDS_INCOMPATIBLE]
    · exact compareProps_level _ _ _ _ _ _ _ _ hx
  · rcases mem_collect.mp h with ⟨x, _, hx⟩
    split at hx
    · simp at hx
    · simp at hx
      simp [levelOk, hx, memberAddedEntry, OUTPUT_FORWARDS_INCOMPATIBLE]
  · rcases mem_collect.mp h with ⟨x, _, hx⟩
    split at hx
    · simp at hx
      simp [levelOk, hx, memberRemovedEntry, OUTPUT_BACKWARDS_INCOMPATIBLE]
    · exact compareCallable_level _ _ _ _ _ _ _ hx
  · rcases mem_collect.mp h with ⟨x, _, hx⟩
    split at hx
    · simp at hx
    · simp at hx
      simp [levelOk, hx, memberAddedEntry, OUTPUT_FORWARDS_INCOMPATIBLE]
  · exact compareAnnots_level _ _ _ _ _ _ _ h

theorem compareTrees_level (f : Option String) (a b : InterfaceMap)
    (e : OutEntry) (he : e ∈ compareTrees f a b) : levelOk e := by
  unfold compareTrees treesRemovedLoop treesAddedLoop at he
  simp only [List.mem_append] at he
  rcases he with h | h
  · rcases mem_collect.mp h with ⟨x, _, hx⟩
    split at hx
    · simp at hx
      simp [levelOk, hx, ifaceRemovedEntry, OUTPUT_BACKWARDS_INCOMPATIBLE]
    · exact compareIfaces_level _ _ _ _ hx
  · rcases mem_collect.mp h with ⟨x, _, hx⟩
    split at hx
    · simp at hx
    · simp at hx
      simp [levelOk, hx, ifaceAddedEntry, OUTPUT_FORWARDS_INCOMPATIBLE]

/-- Under the constructor's default warning configuration (all three
categories enabled, nothing disabled), `get_output` passes every raw
diagnostic through: `compare()` returns the raw output list. -/
theorem compareDefault_eq_raw (f : Option String) (a b : InterfaceMap) :
    compareDefault f a b = compareTrees f a b := by
  unfold compareDefault compare getOutput
  apply List.filter_eq_self.mpr
  intro e he
  rcases compareTrees_level f a b e he with h | h | h <;>
    simp [warningEnabled, WARNING_CATEGORIES, h, OUTPUT_INFO,
      OUTPUT_FORWARDS_INCOMPATIBLE, OUTPUT_BACKWARDS_INCOMPATIBLE]

theorem argCmpCode_not_argument (c : String) (h : argCmpCode c)
    (hc : c = "argument-added" ∨ c = "argument-removed") : False := by
  rcases h with hst | hpre | hst2 | hecs
  · rcases hc with rfl | rfl <;> simp at hst
  · rcases hc with rfl | rfl <;> exact absurd hpre (by decide)
  · rcases hc with rfl | rfl <;> simp at hst2
  · rcases hc with rfl | rfl <;> exact absurd hecs (by decide)

theorem propCmpCode_not_argument (c : String) (h : propCmpCode c)
    (hc : c = "argument-added" ∨ c = "argument-removed") : False := by
  rcases h with hst | hpre | hst2 | hecs
  · rcases hc with rfl | rfl <;> simp at hst
  · rcases hc with rfl | rfl <;> exact absurd hpre (by decide)
  · rcases hc with rfl | rfl <;> simp at hst2
  · rcases hc with rfl | rfl <;> exact absurd hecs (by decide)

theorem ifaceCmpEntry_argument_level (e : OutEntry) (h : ifaceCmpEntry e)
    (hc : e.code = "argument-added" ∨ e.code = "argument-removed") :
    e.level = OUTPUT_BACKWARDS_INCOMPATIBLE := by
  rcases h with ⟨hm, _⟩ | ⟨hm, _⟩ | hcall | hprop
  · rcases hc with hck | hck <;> rw [hck] at hm <;> simp at hm
  · rcases hc with hck | hck <;> rw [hck] at hm <;> simp at hm
  · rcases hcall with ⟨_, hlev⟩ | harg
    · exact hlev
    · exact absurd hc (fun hc2 => argCmpCode_not_argument e.code harg hc2)
  · exact absurd hc (fun hc2 => propCmpCode_not_argument e.code hprop hc2)

/-- Every `argument-added` or `argument-removed` diagnostic produced by
`compare()` is backwards-incompatible, in both comparison directions. -/
theorem compareTrees_argument_levels (f : Option String)
    (a b : InterfaceMap) : ∀ e ∈ compareTrees f a b,
    (e.code = "argument-added" ∨ e.code = "argument-removed") →
    e.level = OUTPUT_BACKWARDS_INCOMPATIBLE := by
  intro e he hc
  unfold compareTrees treesRemovedLoop treesAddedLoop at he
  simp only [List.mem_append] at he
  rcases he with h | h
  · rcases mem_collect.mp h with ⟨p, _, hp⟩
    split at hp
    · simp at hp
      subst hp
      rcases hc with hck | hck <;> simp [ifaceRemovedEntry] at hck
    · exact ifaceCmpEntry_argument_level e (compareIfaces_entry _ _ _ _ hp) hc
  · rcases mem_collect.mp h with ⟨p, _, hp⟩
    split at hp
    · simp at hp
    · simp at hp
      subst hp
      rcases hc with hck | hck <;> simp [ifaceAddedEntry] at hck

/-- The info-severity diagnostics among a comparison output. -/
def infoDiags (out : List OutEntry) : List OutEntry :=
  out.filter (fun e => e.level = OUTPUT_INFO)

/-- An interface named `I` with no members and no annotations. -/
def exIfaceEmpty : InterfaceNode :=
  { name := "I", methods := [], properties := [], signals := [],
    annots := [] }

/-- An interface named `I` marked deprecated. -/
def exIfaceDeprecated : InterfaceNode :=
  { name := "I", methods := [], properties := [], signals := [],
    annots := [("org.freedesktop.DBus.Deprecated", "true")] }

/-- An argument named `x` of D-Bus type `i`. -/
def exArgX : ArgNode :=
  { name := some "x", typ := some [DType.int32], direction := "in",
    annots := [] }

/-- An interface named `I` with one method `M` taking no arguments. -/
def exIfaceNoArg : InterfaceNode :=
  { name := "I", methods := [("M", { name := "M", args := [], annots := [] })],
    properties := [], signals := [], annots := [] }

/-- An interface named `I` with one method `M` taking one argument. -/
def exIfaceOneArg : InterfaceNode :=
  { name := "I",
    methods := [("M", { name := "M", args := [exArgX], annots := [] })],
    properties := [], signals := [], annots := [] }

/-- C3 counterexample.  First: deprecating an interface gives an
info-level `deprecated` diagnostic in the (old,new) run but an
`undeprecated` one in the (new,old) run, so the two runs' info-level
diagnostics are not identical.  Second: adding an argument to a method
yields a backwards-incompatible `argument-added` diagnostic in one run
and a backwards-incompatible (not forwards-incompatible)
`argument-removed` one in the reversed run, so argument add/remove
severities are not swapped. -/
theorem severity_symmetry_counterexample :
    infoDiags (compareDefault none [("I", exIfaceEmpty)]
        [("I", exIfaceDeprecated)]) ≠
      infoDiags (compareDefault none [("I", exIfaceDeprecated)]
        [("I", exIfaceEmpty)]) ∧
    ((compareDefault none [("I", exIfaceNoArg)]
        [("I", exIfaceOneArg)]).filter
        (fun e => e.code = "argument-added")).map OutEntry.level =
      [OUTPUT_BACKWARDS_INCOMPATIBLE] ∧
    ((compareDefault none [("I", exIfaceOneArg)]
        [("I", exIfaceNoArg)]).filter
        (fun e => e.code = "argument-removed")).map OutEntry.level =
      [OUTPUT_BACKWARDS_INCOMPATIBLE] ∧
    OUTPUT_BACKWARDS_INCOMPATIBLE ≠ OUTPUT_FORWARDS_INCOMPATIBLE :=
  ⟨by decide, by decide, by decide, by decide⟩

/-- C3 (amended): comparing (old,new) and then (new,old), the
interface-, method-, property- and signal-level removed diagnostics of
the first run and the added diagnostics of the second run are generated
from the same name list, with severities backwards-incompatible and
forwards-incompatible respectively (and symmetrically with the roles of
the two runs exchanged); `argument-added` and `argument-removed`
diagnostics are backwards-incompatible in both runs, not swapped.  The
info-level diagnostics of the two runs are not required to be
identical. -/
theorem severity_symmetry (fname fname2 : Option String)
    (old new : InterfaceMap) (oi ni : InterfaceNode) :
    ((compareDefault fname old new).filter
        (fun e => e.code = "interface-removed") =
      (old.filter (fun p => (alookup p.1 new).isNone)).map
        (fun p => ifaceRemovedEntry fname p.1)) ∧
    ((compareDefault fname2 new old).filter
        (fun e => e.code = "interface-added") =
      (old.filter (fun p => (alookup p.1 new).isNone)).map
        (fun p => ifaceAddedEntry fname2 p.1)) ∧
    ((compareDefault fname old new).filter
        (fun e => e.code = "interface-added") =
      (new.filter (fun p => (alookup p.1 old).isNone)).map
        (fun p => ifaceAddedEntry fname p.1)) ∧
    ((compareDefault fname2 new old).filter
        (fun e => e.code = "interface-removed") =
      (new.filter (fun p => (alookup p.1 old).isNone)).map
        (fun p => ifaceRemovedEntry fname2 p.1)) ∧
    (∀ n, (ifaceRemovedEntry fname n).level =
        OUTPUT_BACKWARDS_INCOMPATIBLE ∧
      (ifaceAddedEntry fname2 n).level = OUTPUT_FORWARDS_INCOMPATIBLE) ∧
    ((compareIfaces fname oi ni).filter
        (fun e => e.code = "method-removed") =
      (oi.methods.filter (fun p => (alookup p.1 ni.methods).isNone)).map
        (fun p =>
          memberRemovedEntry fname "Method" "method-removed" oi.name
            p.2.name)) ∧
    ((compareIfaces fname2 ni oi).filter
        (fun e => e.code = "method-added") =
      (oi.methods.filter (fun p => (alookup p.1 ni.methods).isNone)).map
        (fun p =>
          memberAddedEntry fname2 "Method" "method-added" oi.name
            p.2.name)) ∧
    ((compareIfaces fname oi ni).filter
        (fun e => e.code = "property-removed") =
      (oi.properties.filter
        (fun p => (alookup p.1 ni.properties).isNone)).map
        (fun p =>
          memberRemovedEntry fname "Property" "property-removed" oi.name
            p.2.name)) ∧
    ((compareIfaces fname2 ni oi).filter
        (fun e => e.code = "property-added") =
      (oi.properties.filter
        (fun p => (alookup p.1 ni.properties).isNone)).map
        (fun p =>
          memberAddedEntry fname2 "Property" "property-added" oi.name
            p.2.name)) ∧
    ((compareIfaces fname oi ni).filter
        (fun e => e.code = "signal-removed") =
      (oi.signals.filter (fun p => (alookup p.1 ni.signals).isNone)).map
        (fun p =>
          memberRemovedEntry fname "Signal" "signal-removed" oi.name
            p.2.name)) ∧
    ((compareIfaces fname2 ni oi).filter
        (fun e => e.code = "signal-added") =
      (oi.signals.filter (fun p => (alookup p.1 ni.signals).isNone)).map
        (fun p =>
          memberAddedEntry fname2 "Signal" "signal-added" oi.name
            p.2.name)) ∧
    (∀ lb cd inm mn, (memberRemovedEntry fname lb cd inm mn).level =
        OUTPUT_BACKWARDS_INCOMPATIBLE ∧
      (memberAddedEntry fname2 lb cd inm mn).level =
        OUTPUT_FORWARDS_INCOMPATIBLE) ∧
    (∀ e ∈ compareDefault fname old new,
      (e.code = "argument-added" ∨ e.code = "argument-removed") →
      e.level = OUTPUT_BACKWARDS_INCOMPATIBLE) := by
  refine ⟨?_, ?_, ?_, ?_, fun n => ⟨rfl, rfl⟩, ?_, ?_, ?_, ?_, ?_, ?_,
    fun lb cd inm mn => ⟨rfl, rfl⟩, ?_⟩
  · rw [compareDefault_eq_raw]
    exact compareTrees_filter_removed fname old new
  · rw [compareDefault_eq_raw]
    exact compareTrees_filter_added fname2 new old
  · rw [compareDefault_eq_raw]
    exact compareTrees_filter_added fname old new
  · rw [compareDefault_eq_raw]
    exact compareTrees_filter_removed fname2 new old
  · exact compareIfaces_filter_method_removed fname oi ni
  · exact compareIfaces_filter_method_added fname2 ni oi
  · exact compareIfaces_filter_property_removed fname oi ni
  · exact compareIfaces_filter_property_added fname2 ni oi
  · exact compareIfaces_filter_signal_removed fname oi ni
  · exact compareIfaces_filter_signal_added fname2 ni oi
  · intro e he hc
    rw [compareDefault_eq_raw] at he
    exact compareTrees_argument_levels fname old new e he hc

/-- Witness for C3's amended theorem: an interface removal yields the
expected backwards-incompatible diagnostic, and a concrete
`argument-added` diagnostic is backwards-incompatible. -/
theorem severity_symmetry_witness :
    ((compareDefault none [("I", exIfaceEmpty)] []).filter
      (fun e => e.code = "interface-removed") =
      [ifaceRemovedEntry none "I"]) ∧
    (⟨none, "backwards-compatibility", "argument-added",
      "Argument 0 (‘x’) of method ‘I.M’ has been added."⟩ : OutEntry).level =
      OUTPUT_BACKWARDS_INCOMPATIBLE := by
  constructor
  · have h := (severity_symmetry none none [("I", exIfaceEmpty)] []
      exIfaceEmpty exIfaceEmpty).1
    rw [h]
    rfl
  · exact (severity_symmetry none none [("I", exIfaceNoArg)]
      [("I", exIfaceOneArg)] exIfaceEmpty
      exIfaceEmpty).2.2.2.2.2.2.2.2.2.2.2.2
      ⟨none, "backwards-compatibility", "argument-added",
        "Argument 0 (‘x’) of method ‘I.M’ has been added."⟩
      (by decide) (Or.inl rfl)

/-! ## The AST construction model (ast.py, log.py)

`Log` objects (log.py) carry a set of registered issue codes, a domain
string and an issue list; `AstLog` registers the AST codes and sets the
domain to 'ast'.  AST node constructors attach their children through
`BaseNode._add_child`, which logs `duplicate-<kind>` and discards the
child when its name is already a key of the name-keyed container. -/

/-- The mutable state of a `Log` (log.py lines 28-32). -/
structure LogState where
  issueCodes : List String
  domain : String
  issues : List LogEntry
  deriving Repr, DecidableEq

/-- The issue codes registered by `AstLog.__init__` (ast.py lines
41-62).  No `duplicate-annotation` code is registered, even though
`BaseNode._add_child` can ask for it. -/
def astLogCodes : List String :=
  ["unknown-node", "empty-root", "missing-attribute", "duplicate-node",
   "duplicate-interface", "duplicate-method", "duplicate-signal",
   "duplicate-property", "node-name", "interface-name", "method-name",
   "signal-name", "property-type", "argument-type"]

/-- An `AstLog` whose issue list currently holds `issues`. -/
def astLog (issues : List LogEntry) : LogState :=
  { issueCodes := astLogCodes, domain := "ast", issues := issues }

/-- `Log.log_issue` (log.py lines 45-54): `assert code in
self.issue_codes`, then append `(None, self.domain, code, message)`.
`none` models the `AssertionError` raised when the code was never
registered. -/
def logIssue (lg : LogState) (code message : String) : Option LogState :=
  if code ∈ lg.issueCodes then
    some { lg with
      issues := lg.issues ++ [⟨none, lg.domain, code, message⟩] }
  else none

/-- `BaseNode._add_child` (ast.py lines 249-266) for a name-keyed
container (an `OrderedDict`, modelled as an association list in
insertion order).  If the child's name is already a key, the node logs
`duplicate-<kind>` with the child's pretty name and returns with the
container unchanged (Python returns `False`; the child is discarded);
otherwise the child is appended.  `none` propagates the assertion
failure of `log_issue`.  (`Node._add_child` prepends name-validation
diagnostics for `Node` children before delegating here, which does not
affect the duplicate logic.) -/
def addChildKeyed (lg : LogState) (container : List (String × α))
    (kind name pretty : String) (child : α) :
    Option (LogState × List (String × α)) :=
  match alookup name container with
  | some _ =>
    (logIssue lg ("duplicate-" ++ kind)
        ("Duplicate " ++ kind ++ " definition ‘" ++ pretty ++ "’.")).map
      (fun lg2 => (lg2, container))
  | none => some (lg, container ++ [(name, child)])

/-- `Callable._add_child` for `Argument` children:
`_child_is_duplicate` returns `False` for them (ast.py lines 506-509),
so an argument is always appended to the `arguments` list. -/
def addChildArg (lg : LogState) (args : List α) (child : α) :
    LogState × List α :=
  (lg, args ++ [child])

/-- A `for child in ...: self._add_child(child)` constructor loop over
one keyed kind, in order. -/
def addChildrenKeyed (kind : String) (keyOf prettyOf : α → String) :
    List α → LogState → List (String × α) →
    Option (LogState × List (String × α))
  | [], lg, c => some (lg, c)
  | x :: xs, lg, c =>
    match addChildKeyed lg c kind (keyOf x) (prettyOf x) x with
    | none => none
    | some (lg2, c2) => addChildrenKeyed kind keyOf prettyOf xs lg2 c2

/-- The `for arg in args: self._add_child(arg)` loop of
`Callable.__init__`. -/
def addChildrenArgs : List α → LogState → List α → LogState × List α
  | [], lg, c => (lg, c)
  | x :: xs, lg, c =>
    addChildrenArgs xs (addChildArg lg c x).1 (addChildArg lg c x).2

/-- `[A-Za-z_]`, the leading character class of the D-Bus name
grammars. -/
def isNameStartChar (c : Char) : Bool :=
  ('A' ≤ c && c ≤ 'Z') || ('a' ≤ c && c ≤ 'z') || c = '_'

/-- `[A-Za-z0-9_]`. -/
def isNameChar (c : Char) : Bool :=
  isNameStartChar c || ('0' ≤ c && c ≤ '9')

/-- Greedy `[A-Za-z0-9_]*`: skip name characters, return the rest. -/
def skipNameChars : List Char → List Char
  | [] => []
  | c :: cs => if isNameChar c then skipNameChars cs else c :: cs

/-- `re.match(r'[A-Za-z_][A-Za-z0-9_]*', ...)`: `re.match` anchors only
at the start of the string, so the match succeeds exactly when the
first character is in `[A-Za-z_]`; the greedy star then consumes the
maximal run of name characters.  Returns the unconsumed remainder. -/
def matchIdent : List Char → Option (List Char)
  | [] => none
  | c :: cs => if isNameStartChar c then some (skipNameChars cs) else none

theorem skipNameChars_length (l : List Char) :
    (skipNameChars l).length ≤ l.length := by
  induction l with
  | nil => simp [skipNameChars]
  | cons c cs ih =>
    unfold skipNameChars
    split
    · exact ih.trans (Nat.le_succ _)
    · exact Nat.le_refl _

theorem matchIdent_length {l r : List Char} (h : matchIdent l = some r) :
    r.length < l.length := by
  cases l with
  | nil => exact absurd h (by simp [matchIdent])
  | cons c cs =>
    simp only [matchIdent] at h
    split at h
    · injection h with h2
      rw [← h2]
      exact Nat.lt_succ_of_le (skipNameChars_length cs)
    · exact absurd h (by simp)

/-- The `(\.[A-Za-z_][A-Za-z0-9_]*)+` part of the interface-name
pattern: greedily consume `.ident` groups, counting how many matched;
the regex succeeds when at least one group has matched by the time the
pattern can no longer extend.  (Backtracking cannot change the outcome:
shortening a greedy identifier run always leaves a name character in
front, never the `.` the next group would need.) -/
def dottedTail : List Char → Nat → Bool
  | [], n => decide (1 ≤ n)
  | c :: rest, n =>
    if c = '.' then
      match h : matchIdent rest with
      | some rest2 => dottedTail rest2 (n + 1)
      | none => decide (1 ≤ n)
    else decide (1 ≤ n)
termination_by l _ => l.length
decreasing_by
  simp only [List.length_cons]
  exact Nat.lt_succ_of_lt (matchIdent_length h)

/-- `Interface.is_valid_interface_name` (ast.py lines 407-419):
`len(name) <= 255` and a `re.match` of
`[A-Za-z_][A-Za-z0-9_]*(\.[A-Za-z_][A-Za-z0-9_]*)+` — a prefix match,
so characters after a valid dotted prefix are unconstrained. -/
def isValidInterfaceName (name : String) : Bool :=
  decide (name.length ≤ 255) &&
    (match matchIdent name.toList with
     | some rest => dottedTail rest 0
     | none => false)

/-- `Callable.is_valid_name` (ast.py lines 519-530): `len(name) <= 255`
and a `re.match` of `[A-Za-z_][A-Za-z0-9_]*` — a prefix match, so only
the first character is actually constrained. -/
def isValidMemberName (name : String) : Bool :=
  decide (name.length ≤ 255) && (matchIdent name.toList).isSome

/-- Claim-side definition of the spec's single-identifier grammar, for
comparison with the code's prefix-matching `isValidMemberName`: the
whole name is one identifier `[A-Za-z_][A-Za-z0-9_]*`. -/
def specIsIdentifier (s : String) : Bool :=
  match s.toList with
  | [] => false
  | c :: cs => isNameStartChar c && cs.all isNameChar

/-- `Annotation.pretty_name` once the annotation has been parented
(`_add_child` assigns `child.parent` before the duplicate check). -/
def annotPretty (parentPretty aname : String) : String :=
  aname ++ " of ‘" ++ parentPretty ++ "’"

/-- `Interface.__init__` (ast.py lines 345-402), with the log seeded
with `issues`: `BaseNode.__init__` attaches the annotations (a dict of
`Annotation`s, modelled as (name, value) pairs in insertion order), the
name is validated (`if name and not
Interface.is_valid_interface_name(name)`), then the methods, signals
and properties are attached in that order.  The result is
(log, annotations, methods, signals, properties); `none` models a
crashed constructor. -/
def buildInterface (issues : List LogEntry) (name : String)
    (methods signals : List CallableNode) (properties : List PropertyNode)
    (annots : List (String × String)) :
    Option (LogState × List (String × (String × String)) ×
      List (String × CallableNode) × List (String × CallableNode) ×
      List (String × PropertyNode)) :=
  match addChildrenKeyed "annotation" Prod.fst
      (fun a => annotPretty name a.1) annots (astLog issues) [] with
  | none => none
  | some (lg1, amap) =>
    match (if name ≠ "" ∧ isValidInterfaceName name = false then
        logIssue lg1 "interface-name"
          ("Invalid interface name ‘" ++ name ++ "’.")
      else some lg1) with
    | none => none
    | some lg2 =>
      match addChildrenKeyed "method" (fun m => m.name)
          (fun m => name ++ "." ++ m.name) methods lg2 [] with
      | none => none
      | some (lg3, mmap) =>
        match addChildrenKeyed "signal" (fun m => m.name)
            (fun m => name ++ "." ++ m.name) signals lg3 [] with
        | none => none
        | some (lg4, smap) =>
          match addChildrenKeyed "property" (fun p => p.name)
              (fun p => name ++ "." ++ p.name) properties lg4 [] with
          | none => none
          | some (lg5, pmap) => some (lg5, amap, mmap, smap, pmap)

/-- `Callable.__init__` followed by the name check shared by
`Method.__init__` and `Signal.__init__` (ast.py lines 475-586):
annotations are attached, each argument is attached unconditionally,
then `if name and not Callable.is_valid_name(name)` logs `nameCode`. -/
def buildCallable (nameCode kindWord : String) (issues : List LogEntry)
    (name : String) (args : List ArgNode)
    (annots : List (String × String)) :
    Option (LogState × List (String × (String × String)) × List ArgNode) :=
  match addChildrenKeyed "annotation" Prod.fst
      (fun a => annotPretty name a.1) annots (astLog issues) [] with
  | none => none
  | some (lg1, amap) =>
    match addChildrenArgs args lg1 [] with
    | (lg2, argsOut) =>
      match (if name ≠ "" ∧ isValidMemberName name = false then
          logIssue lg2 nameCode
            ("Invalid " ++ kindWord ++ " name ‘" ++ name ++ "’.")
        else some lg2) with
      | none => none
      | some lg3 => some (lg3, amap, argsOut)

/-- `Method.__init__` (ast.py lines 533-557). -/
def buildMethod : List LogEntry → String → List ArgNode →
    List (String × String) →
    Option (LogState × List (String × (String × String)) × List ArgNode) :=
  buildCallable "method-name" "method"

/-- `Signal.__init__` (ast.py lines 560-586). -/
def buildSignal : List LogEntry → String → List ArgNode →
    List (String × String) →
    Option (LogState × List (String × (String × String)) × List ArgNode) :=
  buildCallable "signal-name" "signal"

/-- `type_parser.get_output()[0][3]`: the message of the first issue
logged by a failed `TypeParser.parse` (non-empty whenever the parse
failed, so the `""` arm is unreachable on the failure path). -/
def firstIssueMessage (s : String) : String :=
  match (parseSignatureWithLog s).2 with
  | [] => ""
  | e :: _ => e.message

/-- `Argument.pretty_name` at construction time (`index == -1`, no
parent yet). -/
def argCtorPretty : Option String → String
  | none => "unnamed"
  | some n => "‘" ++ n ++ "’"

/-- `Argument.__init__` (ast.py lines 599-631): annotations are
attached, the type string is parsed (logging `argument-type` on
failure, quoting the first parser issue), and the direction is set with
`self.direction = direction or Argument.DIRECTION_IN`, so both `None`
and the falsy empty string become 'in'. -/
def buildArgument (issues : List LogEntry) (name : Option String)
    (direction : Option String) (typeStr : String)
    (annots : List (String × String)) : Option (LogState × ArgNode) :=
  match addChildrenKeyed "annotation" Prod.fst
      (fun a => annotPretty (argCtorPretty name) a.1) annots
      (astLog issues) [] with
  | none => none
  | some (lg1, amap) =>
    match (match parseSignature typeStr with
      | none =>
        logIssue lg1 "argument-type"
          ("Error when parsing type ‘" ++ typeStr ++ "’ for argument ‘" ++
            showNameOpt name ++ "’: " ++ firstIssueMessage typeStr)
      | some _ => some lg1) with
    | none => none
    | some lg2 =>
      some (lg2,
        { name := name, typ := parseSignature typeStr,
          direction := match direction with
            | none => "in"
            | some d => if d = "" then "in" else d,
          annots := amap.map (fun p => (p.1, p.2.2)) })

/-- `InterfaceParser._parse_arg` (interfaceparser.py lines 401-440):
`direction = arg_node.attrib.get('direction', ast.Argument.DIRECTION_IN)`.
The same helper is called from `_parse_method` (line 293) and
`_parse_signal` (line 331). -/
def parseArgDir (attrs : List (String × String)) : String :=
  match alookup "direction" attrs with
  | some d => d
  | none => "in"

theorem addChildrenArgs_eq (xs : List α) :
    ∀ (lg : LogState) (c : List α), addChildrenArgs xs lg c = (lg, c ++ xs) := by
  induction xs with
  | nil => intro lg c; simp [addChildrenArgs]
  | cons x xs ih =>
    intro lg c
    simp only [addChildrenArgs, addChildArg]
    rw [ih]
    simp

theorem alookup_append_none (k : String) (a b : List (String × α))
    (h : alookup k a = none) : alookup k (a ++ b) = alookup k b := by
  induction a with
  | nil => simp
  | cons p t ih =>
    obtain ⟨k2, v⟩ := p
    simp only [alookup] at h ⊢
    split at h
    · exact absurd h (by simp)
    · rw [if_neg (by assumption)]
      exact ih h

/-- Attaching children of one kind preserves the registered codes and
the domain, and adds only `duplicate-<kind>` diagnostics to the log. -/
theorem addChildrenKeyed_spec (kind : String) (keyOf prettyOf : α → String)
    (items : List α) : ∀ (lg : LogState) (c : List (String × α))
    (lg2 : LogState) (c2 : List (String × α)),
    addChildrenKeyed kind keyOf prettyOf items lg c = some (lg2, c2) →
    lg2.issueCodes = lg.issueCodes ∧ lg2.domain = lg.domain ∧
    ∀ t : String, t ≠ "duplicate-" ++ kind →
      lg2.issues.filter (fun e => e.code = t) =
        lg.issues.filter (fun e => e.code = t) := by
  induction items with
  | nil =>
    intro lg c lg2 c2 h
    simp only [addChildrenKeyed, Option.some.injEq, Prod.mk.injEq] at h
    obtain ⟨h1, _⟩ := h
    subst h1
    exact ⟨rfl, rfl, fun t _ => rfl⟩
  | cons x xs ih =>
    intro lg c lg2 c2 h
    simp only [addChildrenKeyed] at h
    split at h
    · exact absurd h (by simp)
    · rename_i lgm cm heq
      have hm := ih lgm cm lg2 c2 h
      simp only [addChildKeyed] at heq
      split at heq
      · rw [Option.map_eq_some'] at heq
        obtain ⟨lga, hlog, hpair⟩ := heq
        simp only [Prod.mk.injEq] at hpair
        obtain ⟨ha, _⟩ := hpair
        subst ha
        simp only [logIssue] at hlog
        split at hlog
        · injection hlog with hlog2
          subst hlog2
          refine ⟨hm.1, hm.2.1, fun t ht => ?_⟩
          rw [hm.2.2 t ht]
          simp [List.filter_append, Ne.symm ht]
        · exact absurd hlog (by simp)
      · injection heq with heq2
        simp only [Prod.mk.injEq] at heq2
        obtain ⟨ha, _⟩ := heq2
        subst ha
        exact hm

/-- When `duplicate-<kind>` is registered, attaching children of that
kind never crashes. -/
theorem addChildrenKeyed_isSome (kind : String) (keyOf prettyOf : α → String)
    (items : List α) : ∀ (lg : LogState) (c : List (String × α)),
    ("duplicate-" ++ kind) ∈ lg.issueCodes →
    (addChildrenKeyed kind keyOf prettyOf items lg c).isSome = true := by
  induction items with
  | nil => intro lg c _; rfl
  | cons x xs ih =>
    intro lg c hmem
    simp only [addChildrenKeyed, addChildKeyed]
    cases hl : alookup (keyOf x) c with
    | some v =>
      simp only [logIssue, if_pos hmem, Option.map_some']
      exact ih _ _ hmem
    | none =>
      exact ih _ _ hmem

/-- When the children's keys are distinct and fresh in the container,
attaching them never hits the duplicate path, so it never crashes (in
particular the annotation case, whose duplicate path would assert). -/
theorem addChildrenKeyed_isSome_of_nodup (kind : String)
    (keyOf prettyOf : α → String) (items : List α) :
    ∀ c : List (String × α), (items.map keyOf).Nodup →
    (∀ i ∈ items, alookup (keyOf i) c = none) → ∀ lg : LogState,
    (addChildrenKeyed kind keyOf prettyOf items lg c).isSome = true := by
  induction items with
  | nil => intro c _ _ lg; rfl
  | cons x xs ih =>
    intro c hnd hni lg
    simp only [List.map_cons, List.nodup_cons] at hnd
    simp only [addChildrenKeyed, addChildKeyed,
      hni x (List.mem_cons_self x xs)]
    apply ih
    · exact hnd.2
    · intro i hi
      rw [alookup_append_none _ _ _ (hni i (List.mem_cons_of_mem x hi))]
      have hne : keyOf x ≠ keyOf i :=
        fun hcontra => hnd.1 (hcontra ▸ List.mem_map_of_mem keyOf hi)
      simp [alookup, hne]

/-- `Callable.__init__` + the `Method`/`Signal` name check: the
`nameCode` diagnostics of the resulting log are exactly the initial
ones plus one entry for a non-empty invalid name, and the argument list
is attached unchanged. -/
theorem buildCallable_spec (nameCode kindWord : String)
    (hnc : nameCode ≠ "duplicate-annotation")
    (issues : List LogEntry) (name : String) (args : List ArgNode)
    (annots : List (String × String)) (lg : LogState)
    (amap : List (String × (String × String))) (argsOut : List ArgNode)
    (h : buildCallable nameCode kindWord issues name args annots =
      some (lg, amap, argsOut)) :
    lg.issues.filter (fun e => e.code = nameCode) =
      issues.filter (fun e => e.code = nameCode) ++
        (if name ≠ "" ∧ isValidMemberName name = false then
          [⟨none, "ast", nameCode,
            "Invalid " ++ kindWord ++ " name ‘" ++ name ++ "’."⟩]
         else []) ∧
    argsOut = args := by
  unfold buildCallable at h
  split at h
  · exact absurd h (by simp)
  · rename_i lg1 amap1 heq1
    split at h
    rename_i lg2 argsOut2 heq2
    rw [addChildrenArgs_eq] at heq2
    simp only [Prod.mk.injEq, List.nil_append] at heq2
    obtain ⟨hlg2, hargs2⟩ := heq2
    subst hlg2
    subst hargs2
    split at h
    · exact absurd h (by simp)
    · rename_i lg3 heq3
      simp only [Option.some.injEq, Prod.mk.injEq] at h
      obtain ⟨h1, h2, h3⟩ := h
      subst h1
      subst h2
      subst h3
      have hpres := addChildrenKeyed_spec "annotation" Prod.fst
        (fun a => annotPretty name a.1) annots (astLog issues) [] lg1 amap1
        heq1
      have hdom : lg1.domain = "ast" := hpres.2.1
      have hfilt : lg1.issues.filter (fun e => e.code = nameCode) =
          issues.filter (fun e => e.code = nameCode) :=
        hpres.2.2 nameCode hnc
      refine ⟨?_, rfl⟩
      split_ifs at heq3 with hcond
      · simp only [logIssue] at heq3
        split at heq3
        · injection heq3 with heq4
          rw [← heq4]
          rw [if_pos hcond]
          simp only [List.filter_append, hfilt, hdom]
          simp
        · exact absurd heq3 (by simp)
      · injection heq3 with heq4
        rw [← heq4, if_neg hcond, List.append_nil]
        exact hfilt

theorem logIssue_eq (lg : LogState) (code message : String)
    (h : code ∈ lg.issueCodes) :
    logIssue lg code message =
      some { lg with issues := lg.issues ++
        [⟨none, lg.domain, code, message⟩] } := by
  unfold logIssue
  rw [if_pos h]

/-- `Interface.__init__`: the `interface-name` diagnostics of the
resulting log are exactly the initial ones plus one entry for a
non-empty invalid name. -/
theorem buildInterface_spec (issues : List LogEntry) (name : String)
    (methods signals : List CallableNode) (properties : List PropertyNode)
    (annots : List (String × String)) (lg : LogState)
    (amap : List (String × (String × String)))
    (mmap smap : List (String × CallableNode))
    (pmap : List (String × PropertyNode))
    (h : buildInterface issues name methods signals properties annots =
      some (lg, amap, mmap, smap, pmap)) :
    lg.issues.filter (fun e => e.code = "interface-name") =
      issues.filter (fun e => e.code = "interface-name") ++
        (if name ≠ "" ∧ isValidInterfaceName name = false then
          [⟨none, "ast", "interface-name",
            "Invalid interface name ‘" ++ name ++ "’."⟩]
         else []) := by
  unfold buildInterface at h
  split at h
  · exact absurd h (by simp)
  · rename_i lg1 amap1 heq1
    split at h
    · exact absurd h (by simp)
    · rename_i lg2 heq2
      split at h
      · exact absurd h (by simp)
      · rename_i lg3 mmap1 heq3
        split at h
        · exact absurd h (by simp)
        · rename_i lg4 smap1 heq4
          split at h
          · exact absurd h (by simp)
          · rename_i lg5 pmap1 heq5
            simp only [Option.some.injEq, Prod.mk.injEq] at h
            obtain ⟨h1, -, -, -, -⟩ := h
            subst h1
            have hp1 := addChildrenKeyed_spec "annotation" Prod.fst
              (fun a => annotPretty name a.1) annots (astLog issues) []
              lg1 amap1 heq1
            have hp3 := addChildrenKeyed_spec "method"
              (fun m : CallableNode => m.name)
              (fun m => name ++ "." ++ m.name) methods lg2 [] lg3 mmap1 heq3
            have hp4 := addChildrenKeyed_spec "signal"
              (fun m : CallableNode => m.name)
              (fun m => name ++ "." ++ m.name) signals lg3 [] lg4 smap1 heq4
            have hp5 := addChildrenKeyed_spec "property"
              (fun p : PropertyNode => p.name)
              (fun p => name ++ "." ++ p.name) properties lg4 [] lg5 pmap1
              heq5
            rw [hp5.2.2 _ (by decide), hp4.2.2 _ (by decide),
              hp3.2.2 _ (by decide)]
            have hdom : lg1.domain = "ast" := hp1.2.1
            have hcode1 : lg1.issueCodes = astLogCodes := hp1.1
            have hfilt : lg1.issues.filter
                (fun e => e.code = "interface-name") =
                issues.filter (fun e => e.code = "interface-name") :=
              hp1.2.2 _ (by decide)
            split_ifs at heq2 with hcond
            · rw [logIssue_eq _ _ _ (by rw [hcode1]; decide)] at heq2
              injection heq2 with heq6
              rw [← heq6, if_pos hcond]
              simp only [List.filter_append, hfilt, hdom]
              simp
            · injection heq2 with heq6
              rw [← heq6, if_neg hcond, List.append_nil]
              exact hfilt

/-- When the annotation names are distinct (as they are for a Python
dict keyed by annotation name), `Interface.__init__` never crashes:
every other duplicate code it may need is registered. -/
theorem buildInterface_isSome (issues : List LogEntry) (name : String)
    (methods signals : List CallableNode) (properties : List PropertyNode)
    (annots : List (String × String))
    (hnd : (annots.map Prod.fst).Nodup) :
    (buildInterface issues name methods signals properties
      annots).isSome = true := by
  unfold buildInterface
  split
  · rename_i heq1
    have h1 := addChildrenKeyed_isSome_of_nodup "annotation" Prod.fst
      (fun a => annotPretty name a.1) annots [] hnd (fun i _ => rfl)
      (astLog issues)
    rw [heq1] at h1
    exact absurd h1 (by simp)
  · rename_i lg1 amap1 heq1
    have hcode1 : lg1.issueCodes = astLogCodes :=
      (addChildrenKeyed_spec _ _ _ _ _ _ _ _ heq1).1
    have hmem : ("interface-name" : String) ∈ lg1.issueCodes := by
      rw [hcode1]; decide
    split
    · rename_i heq2
      by_cases hcond : name ≠ "" ∧ isValidInterfaceName name = false
      · rw [if_pos hcond, logIssue_eq _ _ _ hmem] at heq2
        exact absurd heq2 (by simp)
      · rw [if_neg hcond] at heq2
        exact absurd heq2 (by simp)
    · rename_i lg2 heq2
      have hcode2 : lg2.issueCodes = astLogCodes := by
        by_cases hcond : name ≠ "" ∧ isValidInterfaceName name = false
        · rw [if_pos hcond, logIssue_eq _ _ _ hmem] at heq2
          injection heq2 with h3
          rw [← h3]
          exact hcode1
        · rw [if_neg hcond] at heq2
          injection heq2 with h3
          rw [← h3]
          exact hcode1
      split
      · rename_i heq3
        have h3 := addChildrenKeyed_isSome "method"
          (fun m : CallableNode => m.name)
          (fun m => name ++ "." ++ m.name) methods lg2 []
          (by rw [hcode2]; decide)
        rw [heq3] at h3
        exact absurd h3 (by simp)
      · rename_i lg3 mmap1 heq3
        have hcode3 : lg3.issueCodes = astLogCodes := by
          rw [(addChildrenKeyed_spec _ _ _ _ _ _ _ _ heq3).1, hcode2]
        split
        · rename_i heq4
          have h4 := addChildrenKeyed_isSome "signal"
            (fun m : CallableNode => m.name)
            (fun m => name ++ "." ++ m.name) signals lg3 []
            (by rw [hcode3]; decide)
          rw [heq4] at h4
          exact absurd h4 (by simp)
        · rename_i lg4 smap1 heq4
          have hcode4 : lg4.issueCodes = astLogCodes := by
            rw [(addChildrenKeyed_spec _ _ _ _ _ _ _ _ heq4).1, hcode3]
          split
          · rename_i heq5
            have h5 := addChildrenKeyed_isSome "property"
              (fun p : PropertyNode => p.name)
              (fun p => name ++ "." ++ p.name) properties lg4 []
              (by rw [hcode4]; decide)
            rw [heq5] at h5
            exact absurd h5 (by simp)
          · rfl

/-- When the annotation names are distinct and the name code is
registered, the callable constructors never crash. -/
theorem buildCallable_isSome (nameCode kindWord : String)
    (hreg : nameCode ∈ astLogCodes) (issues : List LogEntry)
    (name : String) (args : List ArgNode)
    (annots : List (String × String))
    (hnd : (annots.map Prod.fst).Nodup) :
    (buildCallable nameCode kindWord issues name args annots).isSome =
      true := by
  unfold buildCallable
  split
  · rename_i heq1
    have h1 := addChildrenKeyed_isSome_of_nodup "annotation" Prod.fst
      (fun a => annotPretty name a.1) annots [] hnd (fun i _ => rfl)
      (astLog issues)
    rw [heq1] at h1
    exact absurd h1 (by simp)
  · rename_i lg1 amap1 heq1
    have hcode1 : lg1.issueCodes = astLogCodes :=
      (addChildrenKeyed_spec _ _ _ _ _ _ _ _ heq1).1
    split
    rename_i lg2 argsOut2 heq2
    have hcode2 : lg2.issueCodes = astLogCodes := by
      rw [addChildrenArgs_eq] at heq2
      injection heq2 with h2l h2r
      rw [← h2l]
      exact hcode1
    have hmem : nameCode ∈ lg2.issueCodes := by rw [hcode2]; exact hreg
    split
    · rename_i heq3
      by_cases hcond : name ≠ "" ∧ isValidMemberName name = false
      · rw [if_pos hcond, logIssue_eq _ _ _ hmem] at heq3
        exact absurd heq3 (by simp)
      · rw [if_neg hcond] at heq3
        exact absurd heq3 (by simp)
    · rfl

/-- C8 counterexample.  For the annotation kind the claimed behaviour
fails: `AstLog` never registers `duplicate-annotation`, so attaching an
annotation whose name already exists makes `Log.log_issue` fail its
`assert code in self.issue_codes` (an `AssertionError`, modelled as
`none`) instead of logging a diagnostic and discarding the child. -/
theorem add_child_counterexample :
    addChildKeyed (astLog []) [("A", "old")] "annotation" "A" "A" "new" =
      none ∧
    "duplicate-annotation" ∉ astLogCodes :=
  ⟨rfl, by decide⟩

/-- C8 (amended): for the five kinds whose duplicate code `AstLog`
registers — node, interface, method, signal, property — attaching a
child whose name is already a key of the destination container logs
exactly one `duplicate-<kind>` diagnostic and leaves the container
unchanged (the first occurrence wins and the new child is discarded);
attaching a child with a fresh name appends it and logs nothing;
arguments are always attached with no duplicate check.  For the
annotation kind the duplicate path instead fails the `log_issue`
assertion, because `duplicate-annotation` is not a registered code. -/
theorem add_child_rules {α : Type} (issues : List LogEntry)
    (kind : String)
    (hk : kind ∈ (["node", "interface", "method", "signal", "property"] :
      List String))
    (container : List (String × α)) (name pretty : String) (child : α) :
    ((alookup name container).isSome = true →
      addChildKeyed (astLog issues) container kind name pretty child =
        some (astLog (issues ++
          [⟨none, "ast", "duplicate-" ++ kind,
            "Duplicate " ++ kind ++ " definition ‘" ++ pretty ++ "’."⟩]),
          container)) ∧
    ((alookup name container).isSome = false →
      addChildKeyed (astLog issues) container kind name pretty child =
        some (astLog issues, container ++ [(name, child)])) ∧
    (∀ (lg : LogState) (args : List α) (c : α),
      addChildArg lg args c = (lg, args ++ [c])) ∧
    ((alookup name container).isSome = true →
      addChildKeyed (astLog issues) container "annotation" name pretty
        child = none) := by
  have hreg : ("duplicate-" ++ kind) ∈ (astLog issues).issueCodes := by
    show ("duplicate-" ++ kind) ∈ astLogCodes
    simp only [List.mem_cons, List.mem_singleton] at hk
    rcases hk with rfl | rfl | rfl | rfl | rfl | hk
    · decide
    · decide
    · decide
    · decide
    · decide
    · exact absurd hk (by simp)
  refine ⟨?_, ?_, fun lg args c => rfl, ?_⟩
  · intro h
    cases hl : alookup name container with
    | none => rw [hl] at h; exact absurd h (by simp)
    | some v =>
      simp only [addChildKeyed, hl, logIssue_eq _ _ _ hreg,
        Option.map_some']
      rfl
  · intro h
    cases hl : alookup name container with
    | some v => rw [hl] at h; exact absurd h (by simp)
    | none => simp only [addChildKeyed, hl]
  · intro h
    cases hl : alookup name container with
    | none => rw [hl] at h; exact absurd h (by simp)
    | some v =>
      have hna : ¬ ("duplicate-" ++ "annotation") ∈
          (astLog issues).issueCodes := by
        show ¬ ("duplicate-" ++ "annotation") ∈ astLogCodes
        decide
      simp only [addChildKeyed, hl, logIssue]
      rw [if_neg hna]
      rfl

/-- Witness for C8's amended theorem, mirroring
`test_ast.TestAstNames.test_duplicate_method`: attaching a second
method named `AMethod` logs one `duplicate-method` diagnostic and
leaves the method container unchanged. -/
theorem add_child_rules_witness :
    (alookup "AMethod" [("AMethod", "m1")]).isSome = true ∧
    addChildKeyed (astLog []) [("AMethod", "m1")] "method" "AMethod"
      "Some.Interface.AMethod" "m2" =
      some (astLog [⟨none, "ast", "duplicate-method",
        "Duplicate method definition ‘Some.Interface.AMethod’."⟩],
        [("AMethod", "m1")]) := by
  refine ⟨rfl, ?_⟩
  have h := (add_child_rules (α := String) [] "method" (by decide)
    [("AMethod", "m1")] "AMethod" "Some.Interface.AMethod" "m2").1 rfl
  rw [h]
  rfl

/-- C9 counterexample.  First: the empty interface name fails the
dotted grammar, yet `Interface('')` logs nothing — the `if name and
...` guard skips validation for empty (falsy) names.  Second:
`'bad name'` is not a single identifier, yet `Callable.is_valid_name`
accepts it (`re.match` only anchors at the start, so it matches the
prefix `bad`), and `Method('bad name', [])` logs nothing. -/
theorem name_validation_counterexample :
    isValidInterfaceName "" = false ∧
    buildInterface [] "" [] [] [] [] =
      some (astLog [], [], [], [], []) ∧
    specIsIdentifier "bad name" = false ∧
    isValidMemberName "bad name" = true ∧
    buildMethod [] "bad name" [] [] = some (astLog [], [], []) :=
  ⟨by decide, rfl, by decide, by decide, rfl⟩

/-- C9 (amended): constructing an `Interface` logs an `interface-name`
diagnostic exactly for those non-empty names that exceed 255 characters
or whose prefix fails the dotted grammar
`[A-Za-z_][A-Za-z0-9_]*(\.[A-Za-z_][A-Za-z0-9_]*)+` (`re.match` is a
prefix match, so trailing out-of-grammar characters are accepted);
constructing a `Method` or `Signal` logs `method-name` / `signal-name`
exactly for non-empty names that exceed 255 characters or do not start
with `[A-Za-z_]`.  Every violation is recoverable: the constructor
still returns a node (under the dict invariant that annotation names
are distinct), and for callables the argument list is attached
unchanged. -/
theorem name_validation_rules :
    (∀ (issues : List LogEntry) (name : String)
      (methods signals : List CallableNode)
      (properties : List PropertyNode) (annots : List (String × String))
      (lg : LogState) (amap : List (String × (String × String)))
      (mmap smap : List (String × CallableNode))
      (pmap : List (String × PropertyNode)),
      buildInterface issues name methods signals properties annots =
        some (lg, amap, mmap, smap, pmap) →
      lg.issues.filter (fun e => e.code = "interface-name") =
        issues.filter (fun e => e.code = "interface-name") ++
          (if name ≠ "" ∧ isValidInterfaceName name = false then
            [⟨none, "ast", "interface-name",
              "Invalid interface name ‘" ++ name ++ "’."⟩]
           else [])) ∧
    (∀ (issues : List LogEntry) (name : String)
      (methods signals : List CallableNode)
      (properties : List PropertyNode)
      (annots : List (String × String)),
      (annots.map Prod.fst).Nodup →
      (buildInterface issues name methods signals properties
        annots).isSome = true) ∧
    (∀ (issues : List LogEntry) (name : String) (args : List ArgNode)
      (annots : List (String × String)) (lg : LogState)
      (amap : List (String × (String × String)))
      (argsOut : List ArgNode),
      buildMethod issues name args annots = some (lg, amap, argsOut) →
      lg.issues.filter (fun e => e.code = "method-name") =
        issues.filter (fun e => e.code = "method-name") ++
          (if name ≠ "" ∧ isValidMemberName name = false then
            [⟨none, "ast", "method-name",
              "Invalid method name ‘" ++ name ++ "’."⟩]
           else []) ∧
        argsOut = args) ∧
    (∀ (issues : List LogEntry) (name : String) (args : List ArgNode)
      (annots : List (String × String)),
      (annots.map Prod.fst).Nodup →
      (buildMethod issues name args annots).isSome = true) ∧
    (∀ (issues : List LogEntry) (name : String) (args : List ArgNode)
      (annots : List (String × String)) (lg : LogState)
      (amap : List (String × (String × String)))
      (argsOut : List ArgNode),
      buildSignal issues name args annots = some (lg, amap, argsOut) →
      lg.issues.filter (fun e => e.code = "signal-name") =
        issues.filter (fun e => e.code = "signal-name") ++
          (if name ≠ "" ∧ isValidMemberName name = false then
            [⟨none, "ast", "signal-name",
              "Invalid signal name ‘" ++ name ++ "’."⟩]
           else []) ∧
        argsOut = args) ∧
    (∀ (issues : List LogEntry) (name : String) (args : List ArgNode)
      (annots : List (String × String)),
      (annots.map Prod.fst).Nodup →
      (buildSignal issues name args annots).isSome = true) := by
  refine ⟨?_, ?_, ?_, ?_, ?_, ?_⟩
  · intro issues name methods signals properties annots lg amap mmap smap
      pmap h
    exact buildInterface_spec issues name methods signals properties
      annots lg amap mmap smap pmap h
  · intro issues name methods signals properties annots hnd
    exact buildInterface_isSome issues name methods signals properties
      annots hnd
  · intro issues name args annots lg amap argsOut h
    exact ⟨(buildCallable_spec "method-name" "method" (by decide) issues
        name args annots lg amap argsOut h).1,
      (buildCallable_spec "method-name" "method" (by decide) issues name
        args annots lg amap argsOut h).2⟩
  · intro issues name args annots hnd
    exact buildCallable_isSome "method-name" "method" (by decide) issues
      name args annots hnd
  · intro issues name args annots lg amap argsOut h
    exact ⟨(buildCallable_spec "signal-name" "signal" (by decide) issues
        name args annots lg amap argsOut h).1,
      (buildCallable_spec "signal-name" "signal" (by decide) issues name
        args annots lg amap argsOut h).2⟩
  · intro issues name args annots hnd
    exact buildCallable_isSome "signal-name" "signal" (by decide) issues
      name args annots hnd

/-- Witness for C9's amended theorem: `Interface('Bad')` is
constructed, and `Method('9bad', [])` logs exactly one `method-name`
diagnostic. -/
theorem name_validation_rules_witness :
    (buildInterface [] "Bad" [] [] [] []).isSome = true ∧
    (astLog [⟨none, "ast", "method-name",
        "Invalid method name ‘9bad’."⟩]).issues.filter
        (fun e => e.code = "method-name") =
      ([] : List LogEntry).filter (fun e => e.code = "method-name") ++
        (if ("9bad" : String) ≠ "" ∧ isValidMemberName "9bad" = false then
          [⟨none, "ast", "method-name", "Invalid method name ‘9bad’."⟩]
         else []) := by
  constructor
  · exact name_validation_rules.2.1 [] "Bad" [] [] [] [] (by decide)
  · exact (name_validation_rules.2.2.1 [] "9bad" [] []
      (astLog [⟨none, "ast", "method-name",
        "Invalid method name ‘9bad’."⟩]) [] [] rfl).1

/-- C10: a missing (`None`) direction — and the equally falsy empty
string — is coerced to 'in' by `self.direction = direction or
Argument.DIRECTION_IN` in `Argument.__init__`; a present non-empty
direction is kept as is; and `InterfaceParser._parse_arg` defaults a
missing `direction` XML attribute to 'in' through
`attrib.get('direction', DIRECTION_IN)`.  Both code paths are shared
verbatim by method arguments and signal arguments (`_parse_method` and
`_parse_signal` call the same `_parse_arg`, and `Method` and `Signal`
arguments are the same `ast.Argument` class). -/
theorem argument_direction_default :
    (∀ (issues : List LogEntry) (name : Option String) (typeStr : String)
      (annots : List (String × String)) (lg : LogState) (arg : ArgNode),
      buildArgument issues name none typeStr annots = some (lg, arg) →
      arg.direction = "in") ∧
    (∀ (issues : List LogEntry) (name : Option String) (typeStr : String)
      (annots : List (String × String)) (lg : LogState) (arg : ArgNode),
      buildArgument issues name (some "") typeStr annots =
        some (lg, arg) →
      arg.direction = "in") ∧
    (∀ (issues : List LogEntry) (name : Option String) (d : String)
      (typeStr : String) (annots : List (String × String))
      (lg : LogState) (arg : ArgNode), d ≠ "" →
      buildArgument issues name (some d) typeStr annots =
        some (lg, arg) →
      arg.direction = d) ∧
    (∀ attrs : List (String × String), alookup "direction" attrs = none →
      parseArgDir attrs = "in") := by
  refine ⟨?_, ?_, ?_, ?_⟩
  · intro issues name typeStr annots lg arg h
    unfold buildArgument at h
    split at h
    · exact absurd h (by simp)
    · split at h
      · exact absurd h (by simp)
      · simp only [Option.some.injEq, Prod.mk.injEq] at h
        rw [← h.2]
  · intro issues name typeStr annots lg arg h
    unfold buildArgument at h
    split at h
    · exact absurd h (by simp)
    · split at h
      · exact absurd h (by simp)
      · simp only [Option.some.injEq, Prod.mk.injEq] at h
        rw [← h.2]
        rfl
  · intro issues name d typeStr annots lg arg hd h
    unfold buildArgument at h
    split at h
    · exact absurd h (by simp)
    · split at h
      · exact absurd h (by simp)
      · simp only [Option.some.injEq, Prod.mk.injEq] at h
        rw [← h.2]
        show (if d = "" then "in" else d) = d
        rw [if_neg hd]
  · intro attrs h
    simp only [parseArgDir, h]

/-- Witness for C10: `Argument('x', None, 's')` gets direction 'in',
and an `<arg name='x' type='s'/>` attribute dict with no `direction`
key is parsed with direction 'in'. -/
theorem argument_direction_default_witness :
    (⟨some "x", some [DType.string], "in", []⟩ : ArgNode).direction =
      "in" ∧
    parseArgDir [("name", "x"), ("type", "s")] = "in" := by
  constructor
  · exact argument_direction_default.1 [] (some "x") "s" [] (astLog [])
      ⟨some "x", some [DType.string], "in", []⟩ rfl
  · exact argument_direction_default.2.2.2 [("name", "x"), ("type", "s")]
      rfl

end DBusDeviation
